import Mathlib

/-! DecimalNumberMatcher.

A shallow embedding of `src/examples/decimal-number-matcher.js` and the properties of
`DecimalNumberMatcher.match`.

The file has four layers.

* `JSNumber`, `ErrorRecord`, `ValidationResult`: the values the matcher handles.
* `DecimalLib`: the three operations of the `decimal.js` dependency that the matcher calls
  (`new Decimal(value)`, `precision(true)`, `decimalPlaces()`), as an interface; and
  `DecimalJs`, a model of what `decimal.js` (10.3 and later) does for string arguments.
* `DecimalNumberMatcher`: the class itself, method by method.
* `Heap`, `HeapMatcher`: the same methods on a heap of objects, for what a call does to the
  matcher and to the results of other calls.

Properties that do not depend on what the library computes are proved for every `DecimalLib`;
facts about particular strings are proved for the `decimal.js` model.
-/

/-! ## JavaScript values -/

/-- A JavaScript number as it occurs in the matcher: an integer, or `NaN`. -/
inductive JSNumber where
  | nan
  | int (n : Int)
deriving DecidableEq, Repr

/-- JavaScript `a > b` where `b` is an integer: false whenever `a` is `NaN`. -/
def JSNumber.gt (a : JSNumber) (b : Int) : Bool :=
  match a with
  | .nan => false
  | .int n => decide (b < n)

/-- JavaScript `a <= b` where `b` is an integer: false whenever `a` is `NaN`. -/
def JSNumber.le (a : JSNumber) (b : Int) : Bool :=
  match a with
  | .nan => false
  | .int n => decide (n ≤ b)

/-- One entry of a validation result: `{code, message}`. -/
structure ErrorRecord where
  code : String
  message : String
deriving DecidableEq, Repr

/-- Modelled from the spec: `./validation-result` is required on line 4 but is not among the
sources. The spec describes it as an ordered collection of coded errors that starts empty and
is changed only by `addInvalidTypeError`. -/
structure ValidationResult where
  errors : List ErrorRecord
deriving DecidableEq, Repr

/-- Modelled from the spec: `new ValidationResult()` holds no errors. -/
def ValidationResult.new : ValidationResult := ⟨[]⟩

/-- Modelled from the spec: `addInvalidTypeError(code, message)` appends one error record and
keeps the order of addition. -/
def ValidationResult.addInvalidTypeError (r : ValidationResult) (code message : String) :
    ValidationResult :=
  ⟨r.errors ++ [⟨code, message⟩]⟩

/-- The error codes held by a result, in order. -/
def ValidationResult.codes (r : ValidationResult) : List String :=
  r.errors.map ErrorRecord.code

/-! ## The decimal library -/

/-- The part of `decimal.js` that the matcher uses. `Value` is the type of `Decimal` objects;
`new` is `new Decimal(value)` on a string, where `Except.error` stands for a thrown `Error`;
`precision x z` is `x.precision(z)` and `decimalPlaces x` is `x.decimalPlaces()`, which
return a number (possibly NaN) and do not throw when `z` is a boolean. -/
structure DecimalLib where
  Value : Type
  new : String → Except String Value
  precision : Value → Bool → JSNumber
  decimalPlaces : Value → JSNumber

namespace DecimalJs

/-! ### A model of `decimal.js` for string arguments

`decimal.js` is an external dependency (line 3 of the source), so this model follows the
library (version 10.3 and later, where a leading `+` and underscores between digits are
accepted), function by function: the constructor, `parseDecimal`, `parseOther`,
`getPrecision`, `precision` and `decimalPlaces`, with the default configuration
(`maxE = 9e15`, `minE = -9e15`). Two things are abstracted.

* JavaScript doubles that hold exponents and indices are exact integers here. The two agree
  unless the input has more than `2^53 - 9e15` characters.
* The numeric conversion of a binary, octal or hexadecimal literal (`convertBase`, `divide`,
  `times`, `pow` in `parseOther`) is a parameter `fromBase`; which strings are such literals
  is modelled exactly.
-/

/-- Number of decimal digits in one word of the digit array. -/
def LOG_BASE : Nat := 7

/-- Default `Decimal.maxE`, 9e15. -/
def maxE : Int := 9000000000000000

/-- Default `Decimal.minE`, -9e15. -/
def minE : Int := -9000000000000000

/-- A `Decimal` object: sign `s` (1, -1 or NaN), exponent `e` (an integer or NaN) and digit
array `d` of base `1e7` words, `none` for `null` (NaN and the infinities). -/
structure Decimal where
  s : JSNumber
  e : JSNumber
  d : Option (List Nat)
deriving DecidableEq, Repr

/-- The regular-expression class `\d`. -/
def isDigit (c : Char) : Bool := decide ('0' ≤ c) && decide (c ≤ '9')

/-- The class `[0-9a-f]`, case-insensitive. -/
def isHexDigit (c : Char) : Bool :=
  isDigit c || (decide ('a' ≤ c) && decide (c ≤ 'f')) || (decide ('A' ≤ c) && decide (c ≤ 'F'))

/-- The class `[0-7]`. -/
def isOctalDigit (c : Char) : Bool := decide ('0' ≤ c) && decide (c ≤ '7')

/-- The class `[01]`. -/
def isBinaryDigit (c : Char) : Bool := c == '0' || c == '1'

/-- The exponent tail `[+-]?\d+$`. -/
def isExponent (cs : List Char) : Bool :=
  let ds := match cs with
    | '+' :: r => r
    | '-' :: r => r
    | _ => cs
  !ds.isEmpty && ds.all isDigit

/-- The shape `^(D+(\.D*)?|\.D+)(x[+-]?\d+)?$` with `/i`, for a digit class `D` and an exponent
letter `x` given in lower and upper case. -/
def isNumeral (dig : Char → Bool) (lo up : Char) (cs : List Char) : Bool :=
  let rest : Option (List Char) :=
    match cs.span dig with
    | ([], '.' :: r) =>
      match r.span dig with
      | ([], _) => none
      | (_, r2) => some r2
    | ([], _) => none
    | (_, '.' :: r) => some (r.dropWhile dig)
    | (_, r) => some r
  match rest with
  | none => false
  | some [] => true
  | some (c :: r) => (c == lo || c == up) && isExponent r

/-- The test `isDecimal = /^(\d+(\.\d*)?|\.\d+)(e[+-]?\d+)?$/i`. -/
def isDecimal (cs : List Char) : Bool := isNumeral isDigit 'e' 'E' cs

/-- The test `isHex = /^0x([0-9a-f]+(\.[0-9a-f]*)?|\.[0-9a-f]+)(p[+-]?\d+)?$/i`. -/
def isHex (cs : List Char) : Bool :=
  match cs with
  | '0' :: x :: r => (x == 'x' || x == 'X') && isNumeral isHexDigit 'p' 'P' r
  | _ => false

/-- The test `isBinary = /^0b([01]+(\.[01]*)?|\.[01]+)(p[+-]?\d+)?$/i`. -/
def isBinary (cs : List Char) : Bool :=
  match cs with
  | '0' :: b :: r => (b == 'b' || b == 'B') && isNumeral isBinaryDigit 'p' 'P' r
  | _ => false

/-- The test `isOctal = /^0o([0-7]+(\.[0-7]*)?|\.[0-7]+)(p[+-]?\d+)?$/i`. -/
def isOctal (cs : List Char) : Bool :=
  match cs with
  | '0' :: o :: r => (o == 'o' || o == 'O') && isNumeral isOctalDigit 'p' 'P' r
  | _ => false

/-- The value `+str` of a run of decimal digits. -/
def digitsToNat (cs : List Char) : Nat :=
  cs.foldl (fun n c => 10 * n + (c.toNat - 48)) 0

/-- The value `+str` of an exponent `[+-]?\d+`. -/
def exponentToInt (cs : List Char) : Int :=
  match cs with
  | '-' :: r => -(digitsToNat r : Int)
  | '+' :: r => (digitsToNat r : Int)
  | _ => (digitsToNat cs : Int)

/-- JavaScript `str.indexOf(c)`: the first position of `c`, or -1. -/
def indexOf (c : Char) : List Char → Int
  | [] => -1
  | x :: xs =>
    if x = c then 0
    else
      let i := indexOf c xs
      if i < 0 then -1 else i + 1

/-- JavaScript `str.search(/e/i)`: the first position of `e` or `E`, or -1. -/
def searchE : List Char → Int
  | [] => -1
  | x :: xs =>
    if x = 'e' ∨ x = 'E' then 0
    else
      let i := searchE xs
      if i < 0 then -1 else i + 1

/-- The words pushed by `parseDecimal` once the first, shorter word is out: full words of
`LOG_BASE` digits while more than `LOG_BASE` digits remain, then the rest padded with zeros. -/
def laterWords : List Char → List Nat
  | a :: b :: c :: d :: e :: f :: g :: h :: t =>
    digitsToNat [a, b, c, d, e, f, g] :: laterWords (h :: t)
  | rest => [digitsToNat (rest ++ List.replicate (LOG_BASE - rest.length) '0')]

/-- The digit array `x.d` that `parseDecimal` builds from the significant digits `str`
(no leading or trailing zero, not empty) and the exponent `e`. -/
def toWords (str : List Char) (e : Int) : List Nat :=
  let i0 : Int := Int.tmod (e + 1) LOG_BASE
  let i : Nat := (if e < 0 then i0 + LOG_BASE else i0).toNat
  if i < str.length then
    (if i ≠ 0 then [digitsToNat (str.take i)] else []) ++ laterWords (str.drop i)
  else
    [digitsToNat (str ++ List.replicate (i - str.length) '0')]

/-- The function `parseDecimal(x, str)` with `x.s = s`, for a `str` that passes `isDecimal`. -/
def parseDecimal (s : Int) (str0 : List Char) : Decimal :=
  -- Decimal point?
  let e0 : Int := indexOf '.' str0
  let str1 := if e0 > -1 then str0.erase '.' else str0
  -- Exponential form?
  let i1 : Int := searchE str1
  let e1 : Int :=
    if i1 > 0 then (if e0 < 0 then i1 else e0) + exponentToInt (str1.drop (i1.toNat + 1))
    else if e0 < 0 then str1.length
    else e0
  let str2 := if i1 > 0 then str1.take i1.toNat else str1
  -- Determine leading zeros.
  let i := (str2.takeWhile (· == '0')).length
  -- Determine trailing zeros.
  let len := str2.length - (str2.reverse.takeWhile (· == '0')).length
  let str := (str2.take len).drop i
  if !str.isEmpty then
    let e : Int := e1 - i - 1
    -- Overflow?
    if e > maxE then ⟨.int s, .nan, none⟩
    -- Underflow?
    else if e < minE then ⟨.int s, .int 0, some [0]⟩
    else ⟨.int s, .int e, some (toWords str e)⟩
  else
    -- Zero.
    ⟨.int s, .int 0, some [0]⟩

/-- The replacement `str.replace(/(\d)_(?=\d)/g, '$1')`: an underscore between two digits is
dropped. -/
def stripUnderscores : List Char → List Char
  | a :: '_' :: b :: r =>
    if isDigit a && isDigit b then a :: stripUnderscores (b :: r)
    else a :: stripUnderscores ('_' :: b :: r)
  | a :: r => a :: stripUnderscores r
  | [] => []

/-- The function `parseOther(x, str)` with `x.s = s`. `fromBase base s str` stands for the
conversion of a literal `str` in base 2, 8 or 16. -/
def parseOther (fromBase : Nat → Int → List Char → Decimal) (s : Int) (str0 : List Char) :
    Except String Decimal :=
  let hasUnderscore := indexOf '_' str0 > -1
  let str := if hasUnderscore then stripUnderscores str0 else str0
  if hasUnderscore && isDecimal str then .ok (parseDecimal s str)
  else if !hasUnderscore && str == "Infinity".data then .ok ⟨.int s, .nan, none⟩
  else if !hasUnderscore && str == "NaN".data then .ok ⟨.nan, .nan, none⟩
  else if isHex str then .ok (fromBase 16 s str)
  else if isBinary str then .ok (fromBase 2 s str)
  else if isOctal str then .ok (fromBase 8 s str)
  else .error ("[DecimalError] Invalid argument: " ++ String.mk str)

/-- The constructor `new Decimal(v)` for a string `v`: an optional sign, then a decimal
literal or one of the forms of `parseOther`; anything else throws. -/
def Decimal.new (fromBase : Nat → Int → List Char → Decimal) (v : String) :
    Except String Decimal :=
  let (s, str) : Int × List Char :=
    match v.data with
    | '-' :: r => (-1, r)
    | '+' :: r => (1, r)
    | cs => (1, cs)
  if isDecimal str then .ok (parseDecimal s str) else parseOther fromBase s str

/-- Number of trailing decimal zeros of a non-zero word `w`; `fuel` bounds the loop and `w`
itself is always enough. -/
def trailingZeros : (fuel : Nat) → (w : Nat) → Nat
  | 0, _ => 0
  | fuel + 1, w => if w % 10 = 0 then trailingZeros fuel (w / 10) + 1 else 0

/-- Number of times `w` is divided by 10 while `w >= 10`: the decimal digit count of `w`,
less one. -/
def digitsAbove : (fuel : Nat) → (w : Nat) → Nat
  | 0, _ => 0
  | fuel + 1, w => if 10 ≤ w then digitsAbove fuel (w / 10) + 1 else 0

/-- The function `getPrecision(digits)`: the number of significant digits of a digit array. -/
def getPrecision (digits : List Nat) : Int :=
  let w := digits.length - 1
  let len : Int := w * LOG_BASE + 1
  let last := digits.getD w 0
  if last ≠ 0 then
    len - trailingZeros last last + digitsAbove (digits.headD 0) (digits.headD 0)
  else len

/-- The method `x.precision(z)`. With `z` true the zeros of the integer part count. -/
def Decimal.precision (x : Decimal) (z : Bool) : JSNumber :=
  match x.d with
  | some d =>
    let k := getPrecision d
    match x.e with
    | .int e => if z && e + 1 > k then .int (e + 1) else .int k
    | .nan => .int k
  | none => .nan

/-- The method `x.decimalPlaces()`. -/
def Decimal.decimalPlaces (x : Decimal) : JSNumber :=
  match x.d with
  | some d =>
    match x.e with
    | .int e =>
      let w := d.length - 1
      let n : Int := ((w : Int) - Int.fdiv e LOG_BASE) * LOG_BASE
      let last := d.getD w 0
      let n := if last ≠ 0 then n - trailingZeros last last else n
      if n < 0 then .int 0 else .int n
    | .nan => .nan
  | none => .nan

end DecimalJs

/-- The `decimal.js` library as a `DecimalLib`, for a given conversion of binary, octal and
hexadecimal literals. -/
def decimalJs (fromBase : Nat → Int → List Char → DecimalJs.Decimal) : DecimalLib where
  Value := DecimalJs.Decimal
  new := DecimalJs.Decimal.new fromBase
  precision := DecimalJs.Decimal.precision
  decimalPlaces := DecimalJs.Decimal.decimalPlaces

/-! ## The matcher -/

/-- The constant `DEFAULT_MAX_DIGITS`. -/
def DEFAULT_MAX_DIGITS : Int := 11

namespace ERRORS_MAP

/-- The entry `ERRORS_MAP.parsingNumberError`. -/
def parsingNumberError : ErrorRecord :=
  ⟨"doubleNumber.e001", "The value is not a valid decimal number."⟩

/-- The entry `ERRORS_MAP.maxDigitsError`. -/
def maxDigitsError : ErrorRecord :=
  ⟨"doubleNumber.e002", "The value exceeded maximum number of digits."⟩

/-- The entry `ERRORS_MAP.maxDecimalPlacesError`. -/
def maxDecimalPlacesError : ErrorRecord :=
  ⟨"doubleNumber.e003", "The value exceeded maximum number of decimal places."⟩

end ERRORS_MAP

/-- The state of one call of `match`: the `result` object under construction and, as ghost
state, the arguments handed to `new Decimal` so far. -/
structure Run where
  result : ValidationResult
  parsed : List String
deriving DecidableEq, Repr

/-- An instance of the class: the two fields the constructor sets. `maxDecimalPlaces = none`
is JavaScript `undefined`. -/
structure DecimalNumberMatcher where
  maxDigits : Int
  maxDecimalPlaces : Option Int
deriving DecidableEq, Repr

namespace DecimalNumberMatcher

/-- The constructor `constructor(maxDigits = DEFAULT_MAX_DIGITS, maxDecimalPlaces)`; `none`
is an omitted argument. -/
def constructor (maxDigits : Option Int) (maxDecimalPlaces : Option Int) :
    DecimalNumberMatcher :=
  ⟨maxDigits.getD DEFAULT_MAX_DIGITS, maxDecimalPlaces⟩

/-- The method `parseNumber(value, result)`: the parsed number, or `none` for `null` after
the parsing error has been added to the result. -/
def parseNumber (L : DecimalLib) (value : String) (st : Run) : Option L.Value × Run :=
  let st : Run := ⟨st.result, st.parsed ++ [value]⟩
  match L.new value with
  | .ok number => (some number, st)
  | .error _ =>
    let error := ERRORS_MAP.parsingNumberError
    (none, ⟨st.result.addInvalidTypeError error.code error.message, st.parsed⟩)

/-- The method `validateDigits(number, maxDigits, result)`. -/
def validateDigits (L : DecimalLib) (number : Option L.Value) (maxDigits : Int)
    (result : ValidationResult) : ValidationResult :=
  match number with
  | some number =>
    if (L.precision number true).gt maxDigits then
      let error := ERRORS_MAP.maxDigitsError
      result.addInvalidTypeError error.code error.message
    else result
  | none => result

/-- The method `validateDecimalPlaces(number, maxDecimalPlaces, result)`. -/
def validateDecimalPlaces (L : DecimalLib) (number : Option L.Value) (maxDecimalPlaces : Int)
    (result : ValidationResult) : ValidationResult :=
  match number with
  | some number =>
    if (L.decimalPlaces number).gt maxDecimalPlaces then
      let error := ERRORS_MAP.maxDecimalPlacesError
      result.addInvalidTypeError error.code error.message
    else result
  | none => result

/-- The method `match(value)`; `value = none` is `null` or `undefined`. The test
`if (this.maxDecimalPlaces)` holds for a number other than zero. -/
def «match» (self : DecimalNumberMatcher) (L : DecimalLib) (value : Option String) : Run :=
  let st : Run := ⟨ValidationResult.new, []⟩
  match value with
  | some value =>
    let (number, st) := parseNumber L value st
    let result := validateDigits L number self.maxDigits st.result
    let result :=
      match self.maxDecimalPlaces with
      | some maxDecimalPlaces =>
        if maxDecimalPlaces ≠ 0 then validateDecimalPlaces L number maxDecimalPlaces result
        else result
      | none => result
    ⟨result, st.parsed⟩
  | none => st

end DecimalNumberMatcher

/-- A stand-in for the conversion of binary, octal and hexadecimal literals, for evaluating the
model on inputs that are not such literals. -/
def DecimalJs.noRadix : Nat → Int → List Char → DecimalJs.Decimal :=
  fun _ _ _ => ⟨.nan, .nan, none⟩

/-! ## The matcher on a heap

The methods once more, now on the objects themselves: the matcher and the result are objects
on a heap, a field is read from the heap when the statement that reads it runs, and
`addInvalidTypeError` changes the result object in place. `Decimal` objects are values: the
source keeps no reference to one after the call. -/

/-- The objects that a call of `match` can reach: the matcher objects, by address, and the
`ValidationResult` objects allocated so far, by reference (their index). -/
structure Heap where
  matchers : Nat → DecimalNumberMatcher
  results : List ValidationResult

namespace Heap

/-- The result objects with `f` applied to the object at `reference`, if there is one. -/
def update (f : ValidationResult → ValidationResult) :
    (reference : Nat) → List ValidationResult → List ValidationResult
  | _, [] => []
  | 0, r :: rs => f r :: rs
  | reference + 1, r :: rs => r :: update f reference rs

/-- Modelled from the spec: `new ValidationResult()` allocates an empty result object; its
reference is the next free index. -/
def newValidationResult (h : Heap) : Nat × Heap :=
  (h.results.length, ⟨h.matchers, h.results ++ [ValidationResult.new]⟩)

/-- Modelled from the spec: `result.addInvalidTypeError(code, message)` appends the error to
the object at `result` and touches nothing else. -/
def addInvalidTypeError (h : Heap) (result : Nat) (code message : String) : Heap :=
  ⟨h.matchers, update (fun r => r.addInvalidTypeError code message) result h.results⟩

end Heap

namespace HeapMatcher

/-- The method `parseNumber(value, result)` on the heap; `result` is a reference. -/
def parseNumber (L : DecimalLib) (h : Heap) (value : String) (result : Nat) :
    Option L.Value × Heap :=
  match L.new value with
  | .ok number => (some number, h)
  | .error _ =>
    let error := ERRORS_MAP.parsingNumberError
    (none, h.addInvalidTypeError result error.code error.message)

/-- The method `validateDigits(number, maxDigits, result)` on the heap. -/
def validateDigits (L : DecimalLib) (h : Heap) (number : Option L.Value) (maxDigits : Int)
    (result : Nat) : Heap :=
  match number with
  | some number =>
    if (L.precision number true).gt maxDigits then
      let error := ERRORS_MAP.maxDigitsError
      h.addInvalidTypeError result error.code error.message
    else h
  | none => h

/-- The method `validateDecimalPlaces(number, maxDecimalPlaces, result)` on the heap. -/
def validateDecimalPlaces (L : DecimalLib) (h : Heap) (number : Option L.Value)
    (maxDecimalPlaces : Int) (result : Nat) : Heap :=
  match number with
  | some number =>
    if (L.decimalPlaces number).gt maxDecimalPlaces then
      let error := ERRORS_MAP.maxDecimalPlacesError
      h.addInvalidTypeError result error.code error.message
    else h
  | none => h

/-- The method `match(value)` called on the matcher object at address `this`: the returned
reference and the heap after the call. The fields `this.maxDigits` and
`this.maxDecimalPlaces` are read from the heap as it is when their statement runs. -/
def «match» (L : DecimalLib) (h : Heap) (this : Nat) (value : Option String) : Nat × Heap :=
  let (result, h) := h.newValidationResult
  match value with
  | some value =>
    let (number, h) := parseNumber L h value result
    let h := validateDigits L h number (h.matchers this).maxDigits result
    let h :=
      match (h.matchers this).maxDecimalPlaces with
      | some maxDecimalPlaces =>
        if maxDecimalPlaces ≠ 0 then validateDecimalPlaces L h number maxDecimalPlaces result
        else h
      | none => h
    (result, h)
  | none => (result, h)

/-- A sequence of calls of `match`, each on the matcher at the given address with the given
value; the returned references are dropped. -/
def run (L : DecimalLib) (h : Heap) : List (Nat × Option String) → Heap
  | [] => h
  | (this, value) :: rest => run L («match» L h this value).2 rest

/-- The object that a call of `match` returns, as it is when the call returns. -/
def returned (L : DecimalLib) (h : Heap) (this : Nat) (value : Option String) :
    Option ValidationResult :=
  («match» L h this value).2.results[(«match» L h this value).1]?

end HeapMatcher

namespace DecimalJs

/-- A letter of the ranges `a-z` and `A-Z`. -/
def isLetter (c : Char) : Bool :=
  (decide ('a' ≤ c) && decide (c ≤ 'z')) || (decide ('A' ≤ c) && decide (c ≤ 'Z'))

/-- A character that is no digit, no letter, no decimal point, no sign and no underscore.
Commas, blanks, apostrophes and the other grouping characters of the locales are of this
kind. -/
def isSeparatorChar (c : Char) : Bool :=
  !(isDigit c || isLetter c || c == '.' || c == '+' || c == '-' || c == '_')

/-- The string `cs` holds no separator character and at most one decimal point. -/
def Plain (cs : List Char) : Prop :=
  (∀ c ∈ cs, isSeparatorChar c = false) ∧ cs.count '.' ≤ 1

/-- A `Decimal` that has digits (a finite number) counts at least one digit: its
`precision(true)` is an integer of at least 1. -/
def HasDigits (x : Decimal) : Prop :=
  ∀ d, x.d = some d → ∃ k : Int, x.precision true = .int k ∧ 1 ≤ k

/-- The conversion of a binary, octal or hexadecimal literal, given the decimal expansion of
the value it denotes. Every `Decimal` that `decimal.js` builds is normalised, so the object
that `parseOther` returns for such a literal is the object that `parseDecimal` builds from
the decimal expansion of its value, or an infinity when the value has none within the
exponent range. Which value the arithmetic of `parseOther` (`convertBase`, `divide`,
`times`, `pow`) arrives at stays open: `expansion base str` is any string. -/
def fromExpansion (expansion : Nat → List Char → List Char) :
    Nat → Int → List Char → Decimal :=
  fun base s str =>
    if isDecimal (expansion base str) then parseDecimal s (expansion base str)
    else ⟨.int s, .nan, none⟩

/-- The decimal expansion of the literals of value zero, such as `0x0` and `0b0`. -/
def expandZero : Nat → List Char → List Char := fun _ _ => ['0']

end DecimalJs

/-! ## Properties of `match` -/

open DecimalNumberMatcher

/-- What `match` returns when the parser throws: the parsing error alone. -/
theorem match_of_error (self : DecimalNumberMatcher) (L : DecimalLib) (value msg : String)
    (h : L.new value = .error msg) :
    self.«match» L (some value) = ⟨⟨[ERRORS_MAP.parsingNumberError]⟩, [value]⟩ := by
  cases self with
  | mk maxDigits maxDecimalPlaces =>
    cases maxDecimalPlaces with
    | none =>
      simp [DecimalNumberMatcher.«match», parseNumber, h, validateDigits,
        ValidationResult.new, ValidationResult.addInvalidTypeError,
        ERRORS_MAP.parsingNumberError]
    | some m =>
      by_cases hm : m = 0 <;>
      simp [DecimalNumberMatcher.«match», parseNumber, h, validateDigits,
        validateDecimalPlaces, ValidationResult.new, ValidationResult.addInvalidTypeError,
        ERRORS_MAP.parsingNumberError, hm]

/-- What `match` returns when the parser succeeds: the outcome of the two checks on the parsed
number, the digit check first. -/
theorem match_of_ok (self : DecimalNumberMatcher) (L : DecimalLib) (value : String)
    (number : L.Value) (h : L.new value = .ok number) :
    (self.«match» L (some value)).result.errors =
      (if (L.precision number true).gt self.maxDigits then [ERRORS_MAP.maxDigitsError]
        else []) ++
      (match self.maxDecimalPlaces with
        | some m =>
          if m ≠ 0 ∧ (L.decimalPlaces number).gt m = true then
            [ERRORS_MAP.maxDecimalPlacesError]
          else []
        | none => []) := by
  cases self with
  | mk maxDigits maxDecimalPlaces =>
    cases maxDecimalPlaces with
    | none =>
      by_cases hp : (L.precision number true).gt maxDigits = true <;>
      simp [DecimalNumberMatcher.«match», parseNumber, h, validateDigits,
        ValidationResult.new, ValidationResult.addInvalidTypeError,
        ERRORS_MAP.maxDigitsError, hp]
    | some m =>
      by_cases hm : m = 0 <;>
      by_cases hp : (L.precision number true).gt maxDigits = true <;>
      by_cases hd : (L.decimalPlaces number).gt m = true <;>
      simp [DecimalNumberMatcher.«match», parseNumber, h, validateDigits,
        validateDecimalPlaces, ValidationResult.new, ValidationResult.addInvalidTypeError,
        ERRORS_MAP.maxDigitsError, ERRORS_MAP.maxDecimalPlacesError, hm, hp, hd]

/-- Claim C1. Whenever the decimal parser throws on a string, `match` returns exactly the one
entry `doubleNumber.e001` with the message "The value is not a valid decimal number.", for
every configuration; and `decimal.js` throws on "abc", "1.2.3", "", "--5" and
"not-a-number". -/
theorem match_parse_failure_is_e001 :
    (∀ (L : DecimalLib) (self : DecimalNumberMatcher) (value msg : String),
      L.new value = .error msg →
      (self.«match» L (some value)).result.errors =
        [⟨"doubleNumber.e001", "The value is not a valid decimal number."⟩]) ∧
    (∀ fromBase, ∀ value ∈ ["abc", "1.2.3", "", "--5", "not-a-number"],
      ∃ msg, (decimalJs fromBase).new value = .error msg) := by
  refine ⟨?_, ?_⟩
  · intro L self value msg h
    rw [match_of_error self L value msg h]
    rfl
  · intro fromBase value hv
    simp only [List.mem_cons, List.mem_singleton, List.not_mem_nil, or_false] at hv
    rcases hv with rfl | rfl | rfl | rfl | rfl <;> exact ⟨_, rfl⟩

/-- Claim C1 at a concrete input: the default matcher on "abc". -/
theorem match_parse_failure_is_e001_witness :
    ((DecimalNumberMatcher.constructor none none).«match» (decimalJs DecimalJs.noRadix)
      (some "abc")).result.errors =
        [⟨"doubleNumber.e001", "The value is not a valid decimal number."⟩] :=
  match_parse_failure_is_e001.1 (decimalJs DecimalJs.noRadix)
    (DecimalNumberMatcher.constructor none none) "abc"
    "[DecimalError] Invalid argument: abc" rfl

/-- Claim C2. For an absent value `match` returns a result without errors, for every
configuration and every library, and no string has been handed to the parser. -/
theorem match_absent_is_empty (L : DecimalLib) (self : DecimalNumberMatcher) :
    (self.«match» L none).result.errors = [] ∧ (self.«match» L none).parsed = [] :=
  ⟨rfl, rfl⟩

/-- Claim C3. When the value parses, the result holds `doubleNumber.e002` (with the message
"The value exceeded maximum number of digits.") exactly when `precision(true)` of the parsed
number is greater than `maxDigits`. -/
theorem match_e002_iff (L : DecimalLib) (self : DecimalNumberMatcher) (value : String)
    (number : L.Value) (h : L.new value = .ok number) :
    ("doubleNumber.e002" ∈ (self.«match» L (some value)).result.codes ↔
      (L.precision number true).gt self.maxDigits = true) ∧
    ((⟨"doubleNumber.e002", "The value exceeded maximum number of digits."⟩ : ErrorRecord) ∈
        (self.«match» L (some value)).result.errors ↔
      (L.precision number true).gt self.maxDigits = true) := by
  rw [ValidationResult.codes, match_of_ok self L value number h]
  cases self with
  | mk maxDigits maxDecimalPlaces =>
    cases maxDecimalPlaces with
    | none =>
      by_cases hp : (L.precision number true).gt maxDigits = true <;>
      simp [ERRORS_MAP.maxDigitsError, hp]
    | some m =>
      by_cases hp : (L.precision number true).gt maxDigits = true <;>
      by_cases hd : m ≠ 0 ∧ (L.decimalPlaces number).gt m = true <;>
      simp [ERRORS_MAP.maxDigitsError, ERRORS_MAP.maxDecimalPlacesError, hp, hd]

/-- Claim C3 at a concrete input: "123456789012" has 12 digits, more than the default 11. -/
theorem match_e002_iff_witness :
    ("doubleNumber.e002" ∈ ((DecimalNumberMatcher.constructor none none).«match»
        (decimalJs DecimalJs.noRadix) (some "123456789012")).result.codes ↔
      JSNumber.gt (.int 12) 11 = true) ∧
    ((⟨"doubleNumber.e002", "The value exceeded maximum number of digits."⟩ : ErrorRecord) ∈
        ((DecimalNumberMatcher.constructor none none).«match»
          (decimalJs DecimalJs.noRadix) (some "123456789012")).result.errors ↔
      JSNumber.gt (.int 12) 11 = true) :=
  match_e002_iff (decimalJs DecimalJs.noRadix) (DecimalNumberMatcher.constructor none none)
    "123456789012" ⟨.int 1, .int 11, some [12345, 6789012]⟩ rfl

/-- Claim C4. When the value parses, the result holds `doubleNumber.e003` (with the message
"The value exceeded maximum number of decimal places.") exactly when `maxDecimalPlaces` is set
to a number other than zero and `decimalPlaces()` of the parsed number is greater than it; and
with `maxDecimalPlaces = 2` the string "1.234" gives that one error. -/
theorem match_e003_iff :
    (∀ (L : DecimalLib) (self : DecimalNumberMatcher) (value : String) (number : L.Value),
      L.new value = .ok number →
      ("doubleNumber.e003" ∈ (self.«match» L (some value)).result.codes ↔
        ∃ m, self.maxDecimalPlaces = some m ∧ m ≠ 0 ∧ (L.decimalPlaces number).gt m = true) ∧
      ((⟨"doubleNumber.e003", "The value exceeded maximum number of decimal places."⟩ :
          ErrorRecord) ∈ (self.«match» L (some value)).result.errors ↔
        ∃ m, self.maxDecimalPlaces = some m ∧ m ≠ 0 ∧ (L.decimalPlaces number).gt m = true)) ∧
    (∀ fromBase,
      ((DecimalNumberMatcher.constructor none (some 2)).«match» (decimalJs fromBase)
        (some "1.234")).result.errors =
        [⟨"doubleNumber.e003", "The value exceeded maximum number of decimal places."⟩]) := by
  refine ⟨?_, fun _ => rfl⟩
  intro L self value number h
  rw [ValidationResult.codes, match_of_ok self L value number h]
  cases self with
  | mk maxDigits maxDecimalPlaces =>
    cases maxDecimalPlaces with
    | none =>
      by_cases hp : (L.precision number true).gt maxDigits = true <;>
      simp [ERRORS_MAP.maxDigitsError, hp]
    | some m =>
      by_cases hp : (L.precision number true).gt maxDigits = true <;>
      by_cases hm : m = 0 <;>
      by_cases hd : (L.decimalPlaces number).gt m = true <;>
      simp [ERRORS_MAP.maxDigitsError, ERRORS_MAP.maxDecimalPlacesError, hp, hm, hd]

/-- Claim C4 at a concrete input: "1.234" has 3 decimal places, more than 2. -/
theorem match_e003_iff_witness :
    ("doubleNumber.e003" ∈ ((DecimalNumberMatcher.constructor none (some 2)).«match»
        (decimalJs DecimalJs.noRadix) (some "1.234")).result.codes ↔
      ∃ m, (some 2 : Option Int) = some m ∧ m ≠ 0 ∧ JSNumber.gt (.int 3) m = true) :=
  (match_e003_iff.1 (decimalJs DecimalJs.noRadix)
    (DecimalNumberMatcher.constructor none (some 2)) "1.234"
    ⟨.int 1, .int 0, some [1, 2340000]⟩ rfl).1

/-- JavaScript `a <= b` excludes `a > b`. -/
theorem JSNumber.gt_eq_false_of_le (a : JSNumber) (b : Int) (h : a.le b = true) :
    a.gt b = false := by
  cases a with
  | nan => rfl
  | int n =>
    simp only [JSNumber.le, decide_eq_true_eq] at h
    simp only [JSNumber.gt, decide_eq_false_iff_not, not_lt]
    exact h

/-- If `a > b` fails then `a > c` fails for every `c` above `b`. -/
theorem JSNumber.gt_eq_false_of_lt (a : JSNumber) (b c : Int) (hbc : b < c)
    (h : a.gt b = false) : a.gt c = false := by
  cases a with
  | nan => rfl
  | int n =>
    simp only [JSNumber.gt, decide_eq_false_iff_not, not_lt] at h ⊢
    omega

/-- Claim C5. A value that parses, whose `precision(true)` is at most `maxDigits` and whose
`decimalPlaces()` is at most `maxDecimalPlaces` when that is set, gets a result without
errors; so does "123.45" under the default configuration. -/
theorem match_within_limits_is_empty :
    (∀ (L : DecimalLib) (self : DecimalNumberMatcher) (value : String) (number : L.Value),
      L.new value = .ok number →
      (L.precision number true).le self.maxDigits = true →
      (∀ m, self.maxDecimalPlaces = some m → m ≠ 0 → (L.decimalPlaces number).le m = true) →
      (self.«match» L (some value)).result.errors = []) ∧
    (∀ fromBase,
      ((DecimalNumberMatcher.constructor none none).«match» (decimalJs fromBase)
        (some "123.45")).result.errors = []) := by
  refine ⟨?_, fun _ => rfl⟩
  intro L self value number h hp hd
  rw [match_of_ok self L value number h, JSNumber.gt_eq_false_of_le _ _ hp]
  cases self with
  | mk maxDigits maxDecimalPlaces =>
    cases maxDecimalPlaces with
    | none => simp
    | some m =>
      by_cases hm : m = 0
      · simp [hm]
      · simp [hm, JSNumber.gt_eq_false_of_le _ _ (hd m rfl hm)]

/-- Claim C5 at a concrete input: "12.5" with `maxDigits = 3` and `maxDecimalPlaces = 1`. -/
theorem match_within_limits_is_empty_witness :
    ((⟨3, some 1⟩ : DecimalNumberMatcher).«match» (decimalJs DecimalJs.noRadix)
      (some "12.5")).result.errors = [] :=
  match_within_limits_is_empty.1 (decimalJs DecimalJs.noRadix) ⟨3, some 1⟩ "12.5"
    ⟨.int 1, .int 1, some [12, 5000000]⟩ rfl (by decide)
    (fun m hm _ => by
      have h1 : m = 1 := (Option.some.inj hm).symm
      subst h1
      decide)

/-- Claim C6. A value that parses and breaks both limits gets exactly the two errors
`doubleNumber.e002` and `doubleNumber.e003`, in that order; so does "12345.6789" with
`maxDigits = 3` and `maxDecimalPlaces = 1`. -/
theorem match_both_limits_exceeded :
    (∀ (L : DecimalLib) (self : DecimalNumberMatcher) (value : String) (number : L.Value)
      (m : Int),
      L.new value = .ok number →
      (L.precision number true).gt self.maxDigits = true →
      self.maxDecimalPlaces = some m → m ≠ 0 →
      (L.decimalPlaces number).gt m = true →
      (self.«match» L (some value)).result.errors =
        [⟨"doubleNumber.e002", "The value exceeded maximum number of digits."⟩,
         ⟨"doubleNumber.e003", "The value exceeded maximum number of decimal places."⟩]) ∧
    (∀ fromBase,
      ((DecimalNumberMatcher.constructor (some 3) (some 1)).«match» (decimalJs fromBase)
        (some "12345.6789")).result.errors =
        [⟨"doubleNumber.e002", "The value exceeded maximum number of digits."⟩,
         ⟨"doubleNumber.e003", "The value exceeded maximum number of decimal places."⟩]) := by
  refine ⟨?_, fun _ => rfl⟩
  intro L self value number m h hp hm hm0 hd
  rw [match_of_ok self L value number h, hp, hm]
  simp [hm0, hd, ERRORS_MAP.maxDigitsError, ERRORS_MAP.maxDecimalPlacesError]

/-- Claim C6 at a concrete input: "99.99" with `maxDigits = 2` and `maxDecimalPlaces = 1`. -/
theorem match_both_limits_exceeded_witness :
    ((⟨2, some 1⟩ : DecimalNumberMatcher).«match» (decimalJs DecimalJs.noRadix)
      (some "99.99")).result.errors =
        [⟨"doubleNumber.e002", "The value exceeded maximum number of digits."⟩,
         ⟨"doubleNumber.e003", "The value exceeded maximum number of decimal places."⟩] :=
  match_both_limits_exceeded.1 (decimalJs DecimalJs.noRadix) ⟨2, some 1⟩ "99.99"
    ⟨.int 1, .int 1, some [99, 9900000]⟩ 1 rfl (by decide) rfl (by decide) (by decide)

/-- Claim C7. A result of `match` never holds `doubleNumber.e001` together with
`doubleNumber.e002` or `doubleNumber.e003`: when the parser throws, `parseNumber` returns no
number, and on no number neither check changes the result. -/
theorem match_e001_excludes_e002_e003 :
    (∀ (L : DecimalLib) (self : DecimalNumberMatcher) (value : Option String),
      "doubleNumber.e001" ∈ (self.«match» L value).result.codes →
      "doubleNumber.e002" ∉ (self.«match» L value).result.codes ∧
      "doubleNumber.e003" ∉ (self.«match» L value).result.codes) ∧
    (∀ (L : DecimalLib) (value msg : String) (st : Run) (maxDigits maxDecimalPlaces : Int)
      (result : ValidationResult),
      L.new value = .error msg →
      (parseNumber L value st).1 = none ∧
      validateDigits L (parseNumber L value st).1 maxDigits result = result ∧
      validateDecimalPlaces L (parseNumber L value st).1 maxDecimalPlaces result = result) := by
  refine ⟨?_, ?_⟩
  · intro L self value
    cases value with
    | none => intro h; simp [DecimalNumberMatcher.«match», ValidationResult.new,
        ValidationResult.codes] at h
    | some v =>
      cases h : L.new v with
      | error msg =>
        intro _
        rw [match_of_error self L v msg h]
        simp [ValidationResult.codes, ERRORS_MAP.parsingNumberError]
      | ok number =>
        intro h1
        exfalso
        rw [ValidationResult.codes, match_of_ok self L v number h] at h1
        cases self with
        | mk maxDigits maxDecimalPlaces =>
          cases maxDecimalPlaces with
          | none =>
            by_cases hp : (L.precision number true).gt maxDigits = true <;>
            simp [ERRORS_MAP.maxDigitsError, hp] at h1
          | some m =>
            by_cases hp : (L.precision number true).gt maxDigits = true <;>
            by_cases hd : m ≠ 0 ∧ (L.decimalPlaces number).gt m = true <;>
            simp [ERRORS_MAP.maxDigitsError, ERRORS_MAP.maxDecimalPlacesError, hp, hd] at h1
  · intro L value msg st maxDigits maxDecimalPlaces result h
    simp [parseNumber, h, validateDigits, validateDecimalPlaces]

/-- Claim C7 at a concrete input: "abc" under `maxDigits = 0` and `maxDecimalPlaces = 1`. -/
theorem match_e001_excludes_e002_e003_witness :
    "doubleNumber.e002" ∉ ((⟨0, some 1⟩ : DecimalNumberMatcher).«match»
        (decimalJs DecimalJs.noRadix) (some "abc")).result.codes ∧
    "doubleNumber.e003" ∉ ((⟨0, some 1⟩ : DecimalNumberMatcher).«match»
        (decimalJs DecimalJs.noRadix) (some "abc")).result.codes :=
  match_e001_excludes_e002_e003.1 (decimalJs DecimalJs.noRadix) ⟨0, some 1⟩ (some "abc")
    (by decide)

/-- Claim C8. Monotonicity in `maxDigits`: a value without errors under `maxDigits = N` has
none under any `maxDigits = M` above `N`, with the same `maxDecimalPlaces`. -/
theorem match_mono_maxDigits (L : DecimalLib) (value : Option String)
    (maxDecimalPlaces : Option Int) (N M : Int) (hNM : N < M)
    (h : ((⟨N, maxDecimalPlaces⟩ : DecimalNumberMatcher).«match» L value).result.errors = []) :
    ((⟨M, maxDecimalPlaces⟩ : DecimalNumberMatcher).«match» L value).result.errors = [] := by
  cases value with
  | none => rfl
  | some v =>
    cases hv : L.new v with
    | error msg =>
      rw [match_of_error _ L v msg hv] at h
      simp at h
    | ok number =>
      rw [match_of_ok _ L v number hv] at h
      rw [match_of_ok _ L v number hv]
      rw [List.append_eq_nil] at h
      obtain ⟨h1, h2⟩ := h
      have hp : (L.precision number true).gt N = false := by
        by_cases hp : (L.precision number true).gt N = true
        · simp [hp] at h1
        · simpa using hp
      rw [List.append_eq_nil]
      refine ⟨?_, h2⟩
      simp [JSNumber.gt_eq_false_of_lt _ N M hNM hp]

/-- Claim C8 at a concrete input: "123.45" passes under `maxDigits = 5`, hence under 6. -/
theorem match_mono_maxDigits_witness :
    ((⟨6, none⟩ : DecimalNumberMatcher).«match» (decimalJs DecimalJs.noRadix)
      (some "123.45")).result.errors = [] :=
  match_mono_maxDigits (decimalJs DecimalJs.noRadix) (some "123.45") none 5 6 (by decide) rfl

/-- Claim C9. A matcher constructed without arguments has `maxDigits = 11` and no limit on
decimal places, and behaves on every value as one constructed with `maxDigits = 11` alone;
it gives exactly `doubleNumber.e002` on "123456789012" and no error on "12345678901". -/
theorem constructor_default :
    DecimalNumberMatcher.constructor none none = ⟨11, none⟩ ∧
    (∀ (L : DecimalLib) (value : Option String),
      (DecimalNumberMatcher.constructor none none).«match» L value =
        (DecimalNumberMatcher.constructor (some 11) none).«match» L value) ∧
    (∀ fromBase,
      ((DecimalNumberMatcher.constructor none none).«match» (decimalJs fromBase)
        (some "123456789012")).result.errors =
        [⟨"doubleNumber.e002", "The value exceeded maximum number of digits."⟩]) ∧
    (∀ fromBase,
      ((DecimalNumberMatcher.constructor none none).«match» (decimalJs fromBase)
        (some "12345678901")).result.errors = []) :=
  ⟨rfl, fun _ _ => rfl, fun _ => rfl, fun _ => rfl⟩

/-- Claim C10, as stated, fails: "123.450" parses to a number with 2 decimal places, so with
`maxDecimalPlaces = 2` and the default `maxDigits` the result has no error, not
`doubleNumber.e003`. -/
theorem match_trailing_zero_counterexample :
    ((DecimalNumberMatcher.constructor none (some 2)).«match» (decimalJs DecimalJs.noRadix)
      (some "123.450")).result.errors = [] ∧
    ((DecimalNumberMatcher.constructor none (some 2)).«match» (decimalJs DecimalJs.noRadix)
      (some "123.450")).result.errors ≠
        [⟨"doubleNumber.e003", "The value exceeded maximum number of decimal places."⟩] := by
  decide

/-- Claim C10, amended. The matcher counts the fractional digits of the parsed number, which
has no trailing zeros: "123.450" parses to the digits of 123.45 and has 2 decimal places, so
under the default `maxDigits` the result is empty for `maxDecimalPlaces = 2` and for
`maxDecimalPlaces = 3`, and is exactly `doubleNumber.e003` for `maxDecimalPlaces = 1`. -/
theorem match_trailing_zero_dropped (fromBase : Nat → Int → List Char → DecimalJs.Decimal) :
    (decimalJs fromBase).new "123.450" = (decimalJs fromBase).new "123.45" ∧
    (decimalJs fromBase).new "123.450" = .ok ⟨.int 1, .int 2, some [123, 4500000]⟩ ∧
    DecimalJs.Decimal.decimalPlaces ⟨.int 1, .int 2, some [123, 4500000]⟩ = .int 2 ∧
    ((DecimalNumberMatcher.constructor none (some 2)).«match» (decimalJs fromBase)
      (some "123.450")).result.errors = [] ∧
    ((DecimalNumberMatcher.constructor none (some 3)).«match» (decimalJs fromBase)
      (some "123.450")).result.errors = [] ∧
    ((DecimalNumberMatcher.constructor none (some 1)).«match» (decimalJs fromBase)
      (some "123.450")).result.errors =
        [⟨"doubleNumber.e003", "The value exceeded maximum number of decimal places."⟩] :=
  ⟨rfl, rfl, rfl, rfl, rfl, rfl⟩

/-- The five results `match` can return: nothing, the parsing error alone, either limit error
alone, or both limit errors with the digit error first. -/
theorem match_outcomes (self : DecimalNumberMatcher) (L : DecimalLib) (value : Option String) :
    (self.«match» L value).result.errors = [] ∨
    (self.«match» L value).result.errors = [ERRORS_MAP.parsingNumberError] ∨
    (self.«match» L value).result.errors = [ERRORS_MAP.maxDigitsError] ∨
    (self.«match» L value).result.errors = [ERRORS_MAP.maxDecimalPlacesError] ∨
    (self.«match» L value).result.errors =
      [ERRORS_MAP.maxDigitsError, ERRORS_MAP.maxDecimalPlacesError] := by
  cases value with
  | none => exact Or.inl rfl
  | some v =>
    cases h : L.new v with
    | error msg =>
      rw [match_of_error self L v msg h]
      exact Or.inr (Or.inl rfl)
    | ok number =>
      rw [match_of_ok self L v number h]
      cases self with
      | mk maxDigits maxDecimalPlaces =>
        cases maxDecimalPlaces with
        | none =>
          by_cases hp : (L.precision number true).gt maxDigits = true <;> simp [hp]
        | some m =>
          by_cases hp : (L.precision number true).gt maxDigits = true <;>
          by_cases hd : m ≠ 0 ∧ (L.decimalPlaces number).gt m = true <;>
          simp [hp, hd]

/-- Claim C11. The digit count of the matcher ignores the sign, the decimal point and leading
zeros: "123.45", "-123.45" and "00123.45" count 5 digits and "0.001" counts 1, so without a
limit on decimal places "123.45" passes under `maxDigits = 5` and gets exactly
`doubleNumber.e002` under `maxDigits = 4`, and "0.001" passes under `maxDigits = 1`. -/
theorem match_digit_count_examples (fromBase : Nat → Int → List Char → DecimalJs.Decimal) :
    (∀ (x : DecimalJs.Decimal) (s : JSNumber) (z : Bool),
      DecimalJs.Decimal.precision ⟨s, x.e, x.d⟩ z = x.precision z) ∧
    (decimalJs fromBase).new "123.45" = .ok ⟨.int 1, .int 2, some [123, 4500000]⟩ ∧
    (decimalJs fromBase).new "-123.45" = .ok ⟨.int (-1), .int 2, some [123, 4500000]⟩ ∧
    (decimalJs fromBase).new "00123.45" = .ok ⟨.int 1, .int 2, some [123, 4500000]⟩ ∧
    DecimalJs.Decimal.precision ⟨.int 1, .int 2, some [123, 4500000]⟩ true = .int 5 ∧
    (decimalJs fromBase).new "0.001" = .ok ⟨.int 1, .int (-3), some [10000]⟩ ∧
    DecimalJs.Decimal.precision ⟨.int 1, .int (-3), some [10000]⟩ true = .int 1 ∧
    ((DecimalNumberMatcher.constructor (some 5) none).«match» (decimalJs fromBase)
      (some "123.45")).result.errors = [] ∧
    ((DecimalNumberMatcher.constructor (some 4) none).«match» (decimalJs fromBase)
      (some "123.45")).result.errors =
        [⟨"doubleNumber.e002", "The value exceeded maximum number of digits."⟩] ∧
    ((DecimalNumberMatcher.constructor (some 1) none).«match» (decimalJs fromBase)
      (some "0.001")).result.errors = [] :=
  ⟨fun _ _ _ => rfl, rfl, rfl, rfl, rfl, rfl, rfl, rfl, rfl, rfl⟩

/-- Claim C13. The setting `maxDecimalPlaces = 0` disables the check of decimal places: for
every value, library and `maxDigits`, `match` returns what it returns with `maxDecimalPlaces`
absent, and never `doubleNumber.e003`; "1.5", with one decimal place, gets none. -/
theorem match_zero_decimal_places_is_disabled :
    (∀ (L : DecimalLib) (maxDigits : Int) (value : Option String),
      (⟨maxDigits, some 0⟩ : DecimalNumberMatcher).«match» L value =
        (⟨maxDigits, none⟩ : DecimalNumberMatcher).«match» L value) ∧
    (∀ (L : DecimalLib) (maxDigits : Int) (value : Option String),
      "doubleNumber.e003" ∉
        ((⟨maxDigits, some 0⟩ : DecimalNumberMatcher).«match» L value).result.codes) ∧
    (∀ fromBase,
      (decimalJs fromBase).new "1.5" = .ok ⟨.int 1, .int 0, some [1, 5000000]⟩ ∧
      DecimalJs.Decimal.decimalPlaces ⟨.int 1, .int 0, some [1, 5000000]⟩ = .int 1 ∧
      ((DecimalNumberMatcher.constructor none (some 0)).«match» (decimalJs fromBase)
        (some "1.5")).result.errors = []) := by
  refine ⟨fun _ _ _ => rfl, ?_, fun _ => ⟨rfl, rfl, rfl⟩⟩
  intro L maxDigits value
  rcases match_outcomes ⟨maxDigits, some 0⟩ L value with h | h | h | h | h
  · simp [ValidationResult.codes, h]
  · simp [ValidationResult.codes, h, ERRORS_MAP.parsingNumberError]
  · simp [ValidationResult.codes, h, ERRORS_MAP.maxDigitsError]
  · exfalso
    cases value with
    | none => simp [DecimalNumberMatcher.«match», ValidationResult.new] at h
    | some v =>
      cases hv : L.new v with
      | error msg =>
        rw [match_of_error _ L v msg hv] at h
        simp [ERRORS_MAP.parsingNumberError, ERRORS_MAP.maxDecimalPlacesError] at h
      | ok number =>
        rw [match_of_ok _ L v number hv] at h
        by_cases hp : (L.precision number true).gt maxDigits = true <;>
        simp [hp, ERRORS_MAP.maxDigitsError, ERRORS_MAP.maxDecimalPlacesError] at h
  · exfalso
    cases value with
    | none => simp [DecimalNumberMatcher.«match», ValidationResult.new] at h
    | some v =>
      cases hv : L.new v with
      | error msg =>
        rw [match_of_error _ L v msg hv] at h
        simp at h
      | ok number =>
        rw [match_of_ok _ L v number hv] at h
        by_cases hp : (L.precision number true).gt maxDigits = true <;>
        simp [hp] at h

/-- Claim C15. The method `match` never throws: for every value and configuration it returns
a result, which is one of five lists of errors; when the parser throws, `parseNumber` catches
the failure, returns no number and adds `doubleNumber.e001`, and that is all `match` reports,
also on garbage such as "%$#@!". -/
theorem match_never_throws :
    (∀ (L : DecimalLib) (self : DecimalNumberMatcher) (value : Option String),
      ∃ result : ValidationResult, (self.«match» L value).result = result ∧
        (result.errors = [] ∨
         result.errors = [ERRORS_MAP.parsingNumberError] ∨
         result.errors = [ERRORS_MAP.maxDigitsError] ∨
         result.errors = [ERRORS_MAP.maxDecimalPlacesError] ∨
         result.errors = [ERRORS_MAP.maxDigitsError, ERRORS_MAP.maxDecimalPlacesError])) ∧
    (∀ (L : DecimalLib) (self : DecimalNumberMatcher) (value msg : String) (st : Run),
      L.new value = .error msg →
      parseNumber L value st =
        (none, ⟨st.result.addInvalidTypeError "doubleNumber.e001"
          "The value is not a valid decimal number.", st.parsed ++ [value]⟩) ∧
      (self.«match» L (some value)).result.errors = [ERRORS_MAP.parsingNumberError]) ∧
    (∀ fromBase (self : DecimalNumberMatcher),
      (self.«match» (decimalJs fromBase) (some "%$#@!")).result.errors =
        [ERRORS_MAP.parsingNumberError]) := by
  refine ⟨fun L self value => ⟨_, rfl, match_outcomes self L value⟩, ?_, ?_⟩
  · intro L self value msg st h
    refine ⟨?_, ?_⟩
    · simp [parseNumber, h, ERRORS_MAP.parsingNumberError]
    · rw [match_of_error self L value msg h]
  · intro fromBase self
    rw [match_of_error self (decimalJs fromBase) "%$#@!"
      "[DecimalError] Invalid argument: %$#@!" rfl]

/-- Claim C15 at a concrete input: the default matcher on "1.2.3". -/
theorem match_never_throws_witness :
    parseNumber (decimalJs DecimalJs.noRadix) "1.2.3" ⟨ValidationResult.new, []⟩ =
        (none, ⟨ValidationResult.new.addInvalidTypeError "doubleNumber.e001"
          "The value is not a valid decimal number.", [] ++ ["1.2.3"]⟩) ∧
    ((DecimalNumberMatcher.constructor none none).«match» (decimalJs DecimalJs.noRadix)
      (some "1.2.3")).result.errors = [ERRORS_MAP.parsingNumberError] :=
  match_never_throws.2.1 (decimalJs DecimalJs.noRadix)
    (DecimalNumberMatcher.constructor none none) "1.2.3"
    "[DecimalError] Invalid argument: 1.2.3" ⟨ValidationResult.new, []⟩ rfl

/-- Claim C16. The error list of `match` has at most two entries and no code twice; it has
exactly one entry when the parser throws and at most two when it succeeds, where none, one
and two all occur. -/
theorem match_errors_bounded :
    (∀ (L : DecimalLib) (self : DecimalNumberMatcher) (value : Option String),
      (self.«match» L value).result.errors.length ≤ 2 ∧
      (self.«match» L value).result.codes.Nodup ∧
      (self.«match» L value).result.errors.Nodup) ∧
    (∀ (L : DecimalLib) (self : DecimalNumberMatcher) (value msg : String),
      L.new value = .error msg → (self.«match» L (some value)).result.errors.length = 1) ∧
    (∀ fromBase,
      ((⟨5, some 2⟩ : DecimalNumberMatcher).«match» (decimalJs fromBase)
        (some "123.45")).result.errors.length = 0 ∧
      ((⟨4, some 2⟩ : DecimalNumberMatcher).«match» (decimalJs fromBase)
        (some "123.45")).result.errors.length = 1 ∧
      ((⟨4, some 1⟩ : DecimalNumberMatcher).«match» (decimalJs fromBase)
        (some "123.45")).result.errors.length = 2) := by
  refine ⟨?_, ?_, fun _ => ⟨rfl, rfl, rfl⟩⟩
  · intro L self value
    rcases match_outcomes self L value with h | h | h | h | h <;>
    simp [ValidationResult.codes, h, ERRORS_MAP.parsingNumberError, ERRORS_MAP.maxDigitsError,
      ERRORS_MAP.maxDecimalPlacesError]
  · intro L self value msg h
    rw [match_of_error self L value msg h]
    rfl

/-- Claim C16 at a concrete input: "abc" under `maxDigits = 0` and `maxDecimalPlaces = 1`. -/
theorem match_errors_bounded_witness :
    ((⟨0, some 1⟩ : DecimalNumberMatcher).«match» (decimalJs DecimalJs.noRadix)
      (some "abc")).result.errors.length = 1 :=
  match_errors_bounded.2.1 (decimalJs DecimalJs.noRadix) ⟨0, some 1⟩ "abc"
    "[DecimalError] Invalid argument: abc" rfl

/-- What `match` returns on a string that `decimal.js` parses to NaN or an infinity: the
digit count and the decimal places are NaN, so neither check adds an error. -/
theorem match_of_not_finite (fromBase : Nat → Int → List Char → DecimalJs.Decimal)
    (self : DecimalNumberMatcher) (value : String) (s : JSNumber)
    (h : (decimalJs fromBase).new value = .ok ⟨s, .nan, none⟩) :
    (self.«match» (decimalJs fromBase) (some value)).result.errors = [] := by
  rw [match_of_ok self (decimalJs fromBase) value _ h]
  have hp : (decimalJs fromBase).precision ⟨s, .nan, none⟩ true = .nan := rfl
  have hd : (decimalJs fromBase).decimalPlaces ⟨s, .nan, none⟩ = .nan := rfl
  rw [hp, hd]
  cases self with
  | mk maxDigits maxDecimalPlaces =>
    cases maxDecimalPlaces with
    | none => simp [JSNumber.gt]
    | some m => simp [JSNumber.gt]

/-- Claim C18. The strings "NaN", "Infinity" and "-Infinity" are accepted by the parser; their
digit count and decimal places are NaN, both comparisons are false, and `match` returns a
result without errors under every configuration, `maxDigits <= 0` included. -/
theorem match_nan_infinity_is_valid (fromBase : Nat → Int → List Char → DecimalJs.Decimal)
    (self : DecimalNumberMatcher) :
    (decimalJs fromBase).new "NaN" = .ok ⟨.nan, .nan, none⟩ ∧
    (decimalJs fromBase).new "Infinity" = .ok ⟨.int 1, .nan, none⟩ ∧
    (decimalJs fromBase).new "-Infinity" = .ok ⟨.int (-1), .nan, none⟩ ∧
    (∀ s, DecimalJs.Decimal.precision ⟨s, .nan, none⟩ true = .nan ∧
      DecimalJs.Decimal.decimalPlaces ⟨s, .nan, none⟩ = .nan) ∧
    (∀ m : Int, JSNumber.gt .nan m = false) ∧
    (self.«match» (decimalJs fromBase) (some "NaN")).result.errors = [] ∧
    (self.«match» (decimalJs fromBase) (some "Infinity")).result.errors = [] ∧
    (self.«match» (decimalJs fromBase) (some "-Infinity")).result.errors = [] ∧
    ((⟨0, some 1⟩ : DecimalNumberMatcher).«match» (decimalJs fromBase)
      (some "NaN")).result.errors = [] ∧
    ((⟨-1, some 1⟩ : DecimalNumberMatcher).«match» (decimalJs fromBase)
      (some "-Infinity")).result.errors = [] :=
  ⟨rfl, rfl, rfl, fun _ => ⟨rfl, rfl⟩, fun _ => rfl,
    match_of_not_finite fromBase self "NaN" .nan rfl,
    match_of_not_finite fromBase self "Infinity" (.int 1) rfl,
    match_of_not_finite fromBase self "-Infinity" (.int (-1)) rfl, rfl, rfl⟩

/-! ## Which strings `decimal.js` accepts, and how many digits they count -/

namespace DecimalJs

/-- An exponent tail is an optional sign followed by at least one digit. -/
theorem isExponent_shape (cs : List Char) (h : isExponent cs = true) :
    ∃ sg ds, cs = sg ++ ds ∧ (sg = [] ∨ sg = ['+'] ∨ sg = ['-']) ∧ ds ≠ [] ∧
      ∀ c ∈ ds, isDigit c = true := by
  unfold isExponent at h
  split at h
  · next r =>
    simp only [Bool.and_eq_true, Bool.not_eq_true', List.isEmpty_eq_false,
      List.all_eq_true] at h
    exact ⟨['+'], r, rfl, Or.inr (Or.inl rfl), h.1, h.2⟩
  · next r =>
    simp only [Bool.and_eq_true, Bool.not_eq_true', List.isEmpty_eq_false,
      List.all_eq_true] at h
    exact ⟨['-'], r, rfl, Or.inr (Or.inr rfl), h.1, h.2⟩
  · simp only [Bool.and_eq_true, Bool.not_eq_true', List.isEmpty_eq_false,
      List.all_eq_true] at h
    exact ⟨[], cs, rfl, Or.inl rfl, h.1, h.2⟩

/-- A string of the numeral shape splits into integer digits, an optional point, fraction
digits and an optional exponent, with a digit on one side of the point at least. -/
theorem isNumeral_shape (dig : Char → Bool) (lo up : Char) (cs : List Char)
    (h : isNumeral dig lo up cs = true) :
    ∃ ip dot fp ex, cs = ip ++ dot ++ fp ++ ex ∧ (∀ c ∈ ip, dig c = true) ∧
      (∀ c ∈ fp, dig c = true) ∧ (dot = [] ∨ dot = ['.']) ∧ ip ++ fp ≠ [] ∧
      (ex = [] ∨ ∃ c r, ex = c :: r ∧ (c = lo ∨ c = up) ∧ isExponent r = true) := by
  have hex : ∀ ex : List Char,
      (match some ex with
        | none => false
        | some [] => true
        | some (c :: r) => (c == lo || c == up) && isExponent r) = true →
      (ex = [] ∨ ∃ c r, ex = c :: r ∧ (c = lo ∨ c = up) ∧ isExponent r = true) := by
    intro ex hx
    cases ex with
    | nil => exact Or.inl rfl
    | cons c r =>
      simp only [Bool.and_eq_true, Bool.or_eq_true, beq_iff_eq] at hx
      exact Or.inr ⟨c, r, rfl, hx.1, hx.2⟩
  unfold isNumeral at h
  rw [List.span_eq_take_drop] at h
  have hcs := List.takeWhile_append_dropWhile dig cs
  have hip : ∀ c ∈ List.takeWhile dig cs, dig c = true := fun c hc => List.mem_takeWhile_imp hc
  generalize List.takeWhile dig cs = ip at h hcs hip
  generalize List.dropWhile dig cs = r1 at h hcs
  subst hcs
  split at h
  · next r heq =>
    simp only [Prod.mk.injEq] at heq
    obtain ⟨h1, h2⟩ := heq
    subst h1 h2
    rw [List.span_eq_take_drop] at h
    have hr := List.takeWhile_append_dropWhile dig r
    have hfp : ∀ c ∈ List.takeWhile dig r, dig c = true :=
      fun c hc => List.mem_takeWhile_imp hc
    generalize List.takeWhile dig r = fp at h hr hfp
    generalize List.dropWhile dig r = ex at h hr
    subst hr
    cases fp with
    | nil => simp at h
    | cons a as =>
      exact ⟨[], ['.'], a :: as, ex, rfl, hip, hfp, Or.inr rfl, by simp, hex ex h⟩
  · simp at h
  · next fst r hne1 hne heq =>
    simp only [Prod.mk.injEq] at heq
    obtain ⟨h1, h2⟩ := heq
    subst h1 h2
    have hr := List.takeWhile_append_dropWhile dig r
    have hfp : ∀ c ∈ List.takeWhile dig r, dig c = true :=
      fun c hc => List.mem_takeWhile_imp hc
    refine ⟨ip, ['.'], List.takeWhile dig r, List.dropWhile dig r, ?_, hip, hfp, Or.inr rfl,
      ?_, hex _ h⟩
    · simp [hr]
    · intro hnil
      simp only [List.append_eq_nil] at hnil
      exact hne hnil.1
  · next ip2 r12 h1 h2 h3 heq =>
    simp only [Prod.mk.injEq] at heq
    obtain ⟨h4, h5⟩ := heq
    subst h4 h5
    refine ⟨ip, [], [], r1, by simp, hip, by simp, Or.inl rfl, ?_, hex _ h⟩
    simpa using h2

/-- A hexadecimal digit is a digit or a letter. -/
theorem isHexDigit_plain (c : Char) (h : isHexDigit c = true) :
    (isDigit c || isLetter c) = true := by
  simp only [isHexDigit, isLetter, Bool.or_eq_true, Bool.and_eq_true, decide_eq_true_eq] at h ⊢
  rcases h with (h | h) | h
  · exact Or.inl h
  · exact Or.inr (Or.inl ⟨h.1, Char.le_trans h.2 (by decide)⟩)
  · exact Or.inr (Or.inr ⟨h.1, Char.le_trans h.2 (by decide)⟩)

/-- An octal digit is a digit. -/
theorem isOctalDigit_plain (c : Char) (h : isOctalDigit c = true) :
    (isDigit c || isLetter c) = true := by
  simp only [isOctalDigit, isDigit, Bool.or_eq_true, Bool.and_eq_true, decide_eq_true_eq] at h ⊢
  exact Or.inl ⟨h.1, Char.le_trans h.2 (by decide)⟩

/-- A binary digit is a digit. -/
theorem isBinaryDigit_plain (c : Char) (h : isBinaryDigit c = true) :
    (isDigit c || isLetter c) = true := by
  simp only [isBinaryDigit, Bool.or_eq_true, beq_iff_eq] at h
  rcases h with rfl | rfl <;> decide

/-- Dropping underscores keeps the number of occurrences of every other character. -/
theorem stripUnderscores_count (c : Char) (hc : c ≠ '_') (cs : List Char) :
    (stripUnderscores cs).count c = cs.count c := by
  induction cs using stripUnderscores.induct with
  | case1 a b r hab ih =>
    rw [stripUnderscores, if_pos hab, List.count_cons, ih]
    simp [List.count_cons, Ne.symm hc]
  | case2 a b r hab ih =>
    rw [stripUnderscores, if_neg hab, List.count_cons, ih]
    simp [List.count_cons]
  | case3 a r hne ih =>
    rw [stripUnderscores, List.count_cons, ih, List.count_cons]
    intro b r2 hr
    exact hne b r2 hr
  | case4 => rfl

/-- A digit or letter is no separator and no decimal point. -/
theorem plain_of_digit_or_letter (c : Char) (h : (isDigit c || isLetter c) = true) :
    isSeparatorChar c = false ∧ c ≠ '.' := by
  refine ⟨?_, ?_⟩
  · simp only [Bool.or_eq_true] at h
    rcases h with h | h <;> simp [isSeparatorChar, h]
  · rintro rfl
    exact absurd h (by decide)

/-- An exponent tail holds no separator and no decimal point. -/
theorem isExponent_plain (cs : List Char) (h : isExponent cs = true) :
    ∀ c ∈ cs, isSeparatorChar c = false ∧ c ≠ '.' := by
  obtain ⟨sg, ds, rfl, hsg, _, hds⟩ := isExponent_shape cs h
  intro c hc
  rw [List.mem_append] at hc
  rcases hc with hc | hc
  · rcases hsg with rfl | rfl | rfl
    · simp at hc
    · simp only [List.mem_singleton] at hc
      subst hc
      decide
    · simp only [List.mem_singleton] at hc
      subst hc
      decide
  · exact plain_of_digit_or_letter c (by simp [hds c hc])

/-- A string of the numeral shape over digits and letters holds no separator and at most one
decimal point. -/
theorem isNumeral_plain (dig : Char → Bool) (lo up : Char) (cs : List Char)
    (hdig : ∀ c, dig c = true → (isDigit c || isLetter c) = true)
    (hlo : isLetter lo = true) (hup : isLetter up = true)
    (h : isNumeral dig lo up cs = true) :
    (∀ c ∈ cs, isSeparatorChar c = false) ∧ cs.count '.' ≤ 1 := by
  obtain ⟨ip, dot, fp, ex, rfl, hip, hfp, hdot, _, hex⟩ := isNumeral_shape dig lo up cs h
  have pip : ∀ c ∈ ip, isSeparatorChar c = false ∧ c ≠ '.' :=
    fun c hc => plain_of_digit_or_letter c (hdig c (hip c hc))
  have pfp : ∀ c ∈ fp, isSeparatorChar c = false ∧ c ≠ '.' :=
    fun c hc => plain_of_digit_or_letter c (hdig c (hfp c hc))
  have pex : ∀ c ∈ ex, isSeparatorChar c = false ∧ c ≠ '.' := by
    rcases hex with rfl | ⟨x, r, rfl, hx, hr⟩
    · intro c hc
      simp at hc
    · intro c hc
      rw [List.mem_cons] at hc
      rcases hc with rfl | hc
      · rcases hx with rfl | rfl
        · exact plain_of_digit_or_letter _ (by simp [hlo])
        · exact plain_of_digit_or_letter _ (by simp [hup])
      · exact isExponent_plain r hr c hc
  have pdot : ∀ c ∈ dot, isSeparatorChar c = false := by
    rcases hdot with rfl | rfl
    · intro c hc
      simp at hc
    · intro c hc
      simp only [List.mem_singleton] at hc
      subst hc
      decide
  refine ⟨?_, ?_⟩
  · intro c hc
    simp only [List.mem_append] at hc
    rcases hc with ((hc | hc) | hc) | hc
    · exact (pip c hc).1
    · exact pdot c hc
    · exact (pfp c hc).1
    · exact (pex c hc).1
  · have c1 : ip.count '.' = 0 :=
      List.count_eq_zero_of_not_mem (fun hm => (pip _ hm).2 rfl)
    have c2 : fp.count '.' = 0 :=
      List.count_eq_zero_of_not_mem (fun hm => (pfp _ hm).2 rfl)
    have c3 : ex.count '.' = 0 :=
      List.count_eq_zero_of_not_mem (fun hm => (pex _ hm).2 rfl)
    have c4 : dot.count '.' ≤ 1 := by
      rcases hdot with rfl | rfl <;> simp
    simp only [List.count_append, c1, c2, c3]
    omega

/-- A plain string stays plain when a character that is no separator and no point is put in
front. -/
theorem Plain.cons (a : Char) (r : List Char) (ha : isSeparatorChar a = false) (hd : a ≠ '.')
    (h : Plain r) : Plain (a :: r) := by
  refine ⟨?_, ?_⟩
  · intro c hc
    rw [List.mem_cons] at hc
    rcases hc with rfl | hc
    · exact ha
    · exact h.1 c hc
  · rw [List.count_cons]
    have : (a == '.') = false := by simpa using hd
    simp only [this, Bool.false_eq_true, if_false, Nat.add_zero]
    exact h.2

/-- A decimal literal is plain. -/
theorem isDecimal_plain (cs : List Char) (h : isDecimal cs = true) : Plain cs :=
  isNumeral_plain isDigit 'e' 'E' cs (fun c hc => by simp [hc]) (by decide) (by decide) h

/-- A hexadecimal literal is plain. -/
theorem isHex_plain (cs : List Char) (h : isHex cs = true) : Plain cs := by
  unfold isHex at h
  split at h
  · next x r =>
    simp only [Bool.and_eq_true, Bool.or_eq_true, beq_iff_eq] at h
    have hr := isNumeral_plain isHexDigit 'p' 'P' r isHexDigit_plain (by decide) (by decide) h.2
    refine Plain.cons _ _ (by decide) (by decide) ?_
    rcases h.1 with rfl | rfl
    · exact Plain.cons _ _ (by decide) (by decide) hr
    · exact Plain.cons _ _ (by decide) (by decide) hr
  · simp at h

/-- A binary literal is plain. -/
theorem isBinary_plain (cs : List Char) (h : isBinary cs = true) : Plain cs := by
  unfold isBinary at h
  split at h
  · next x r =>
    simp only [Bool.and_eq_true, Bool.or_eq_true, beq_iff_eq] at h
    have hr := isNumeral_plain isBinaryDigit 'p' 'P' r isBinaryDigit_plain (by decide)
      (by decide) h.2
    refine Plain.cons _ _ (by decide) (by decide) ?_
    rcases h.1 with rfl | rfl
    · exact Plain.cons _ _ (by decide) (by decide) hr
    · exact Plain.cons _ _ (by decide) (by decide) hr
  · simp at h

/-- An octal literal is plain. -/
theorem isOctal_plain (cs : List Char) (h : isOctal cs = true) : Plain cs := by
  unfold isOctal at h
  split at h
  · next x r =>
    simp only [Bool.and_eq_true, Bool.or_eq_true, beq_iff_eq] at h
    have hr := isNumeral_plain isOctalDigit 'p' 'P' r isOctalDigit_plain (by decide)
      (by decide) h.2
    refine Plain.cons _ _ (by decide) (by decide) ?_
    rcases h.1 with rfl | rfl
    · exact Plain.cons _ _ (by decide) (by decide) hr
    · exact Plain.cons _ _ (by decide) (by decide) hr
  · simp at h

/-- A string is plain when it is plain after its underscores are dropped. -/
theorem Plain.of_stripUnderscores (cs : List Char) (h : Plain (stripUnderscores cs)) :
    Plain cs := by
  refine ⟨?_, ?_⟩
  · intro c hc
    by_cases hu : c = '_'
    · subst hu
      decide
    · apply h.1
      rw [← List.count_pos_iff, stripUnderscores_count c hu]
      exact List.count_pos_iff.mpr hc
  · rw [← stripUnderscores_count '.' (by decide)]
    exact h.2

/-- Whatever `parseOther` accepts is plain. -/
theorem parseOther_plain (fromBase : Nat → Int → List Char → Decimal) (s : Int)
    (str0 : List Char) (x : Decimal) (h : parseOther fromBase s str0 = .ok x) :
    Plain str0 := by
  unfold parseOther at h
  by_cases hu : indexOf '_' str0 > -1
  · simp only [hu, decide_True, if_true, Bool.true_and, Bool.not_true, Bool.false_and,
      Bool.false_eq_true, if_false] at h
    apply Plain.of_stripUnderscores
    split at h
    · next hd => exact isDecimal_plain _ hd
    · split at h
      · next hd => exact isHex_plain _ hd
      · split at h
        · next hd => exact isBinary_plain _ hd
        · split at h
          · next hd => exact isOctal_plain _ hd
          · simp at h
  · simp only [hu, decide_False, Bool.false_eq_true, if_false, Bool.false_and, Bool.not_false,
      Bool.true_and] at h
    split at h
    · next hd =>
      have : str0 = "Infinity".data := by simpa using hd
      subst this
      exact ⟨by decide, by decide⟩
    · split at h
      · next hd =>
        have : str0 = "NaN".data := by simpa using hd
        subst this
        exact ⟨by decide, by decide⟩
      · split at h
        · next hd => exact isHex_plain _ hd
        · split at h
          · next hd => exact isBinary_plain _ hd
          · split at h
            · next hd => exact isOctal_plain _ hd
            · simp at h

/-- Whatever `new Decimal` accepts is plain: it holds no separator and at most one decimal
point. -/
theorem new_plain (fromBase : Nat → Int → List Char → Decimal) (v : String) (x : Decimal)
    (h : Decimal.new fromBase v = .ok x) : Plain v.data := by
  unfold Decimal.new at h
  have key : ∀ (s : Int) (str : List Char),
      (if isDecimal str = true then Except.ok (parseDecimal s str)
        else parseOther fromBase s str) = Except.ok x → Plain str := by
    intro s str hs
    split at hs
    · next hd => exact isDecimal_plain _ hd
    · exact parseOther_plain fromBase s str x hs
  split at h
  next s str heq =>
  split at heq
  · next r hv =>
    simp only [Prod.mk.injEq] at heq
    obtain ⟨rfl, rfl⟩ := heq
    rw [hv]
    exact Plain.cons _ _ (by decide) (by decide) (key _ _ h)
  · next r hv =>
    simp only [Prod.mk.injEq] at heq
    obtain ⟨rfl, rfl⟩ := heq
    rw [hv]
    exact Plain.cons _ _ (by decide) (by decide) (key _ _ h)
  · simp only [Prod.mk.injEq] at heq
    obtain ⟨rfl, rfl⟩ := heq
    exact key _ _ h

/-- The result of `indexOf` is at least -1. -/
theorem indexOf_ge (c : Char) (l : List Char) : -1 ≤ indexOf c l := by
  induction l with
  | nil => simp [indexOf]
  | cons x xs ih =>
    unfold indexOf
    split
    · omega
    · simp only []
      split <;> omega

/-- The result of `indexOf` is -1 for a character that does not occur. -/
theorem indexOf_of_not_mem (c : Char) (l : List Char) (h : c ∉ l) : indexOf c l = -1 := by
  induction l with
  | nil => rfl
  | cons x xs ih =>
    rw [List.mem_cons, not_or] at h
    unfold indexOf
    rw [if_neg (fun hx => h.1 hx.symm)]
    simp [ih h.2]

/-- The result of `indexOf` is a position for a character that occurs. -/
theorem indexOf_of_mem (c : Char) (l : List Char) (h : c ∈ l) : indexOf c l > -1 := by
  induction l with
  | nil => simp at h
  | cons x xs ih =>
    unfold indexOf
    split
    · omega
    · next hx =>
      rw [List.mem_cons] at h
      rcases h with h | h
      · exact absurd h.symm hx
      · have := ih h
        simp only []
        split <;> omega

/-- A run of digits holds no exponent letter. -/
theorem searchE_of_digits (l : List Char) (h : ∀ c ∈ l, isDigit c = true) :
    searchE l = -1 := by
  induction l with
  | nil => rfl
  | cons x xs ih =>
    have hx := h x (List.mem_cons_self _ _)
    have hne : ¬ (x = 'e' ∨ x = 'E') := by
      rintro (rfl | rfl) <;> exact absurd hx (by decide)
    unfold searchE
    rw [if_neg hne]
    simp [ih (fun c hc => h c (List.mem_cons_of_mem _ hc))]

/-- The exponent letter after a run of digits is found at the length of the run. -/
theorem searchE_append (l r : List Char) (x : Char) (h : ∀ c ∈ l, isDigit c = true)
    (hx : x = 'e' ∨ x = 'E') : searchE (l ++ x :: r) = l.length := by
  induction l with
  | nil =>
    unfold searchE
    simp [hx]
  | cons y ys ih =>
    have hy := h y (List.mem_cons_self _ _)
    have hne : ¬ (y = 'e' ∨ y = 'E') := by
      rintro (rfl | rfl) <;> exact absurd hy (by decide)
    rw [List.cons_append]
    unfold searchE
    rw [if_neg hne, ih (fun c hc => h c (List.mem_cons_of_mem _ hc))]
    simp only [List.length_cons, Nat.cast_add, Nat.cast_one]
    split <;> omega

/-- The digits that `parseDecimal` keeps from a decimal literal, before it strips zeros:
the literal without its decimal point and without its exponent. -/
theorem isDecimal_mantissa (str0 : List Char) (h : isDecimal str0 = true) :
    ∀ c ∈ (if searchE (if indexOf '.' str0 > -1 then str0.erase '.' else str0) > 0 then
        (if indexOf '.' str0 > -1 then str0.erase '.' else str0).take
          (searchE (if indexOf '.' str0 > -1 then str0.erase '.' else str0)).toNat
        else (if indexOf '.' str0 > -1 then str0.erase '.' else str0)),
      isDigit c = true := by
  obtain ⟨ip, dot, fp, ex, rfl, hip, hfp, hdot, hne, hex⟩ :=
    isNumeral_shape isDigit 'e' 'E' str0 h
  have nip : '.' ∉ ip := fun hm => absurd (hip _ hm) (by decide)
  have nfp : '.' ∉ fp := fun hm => absurd (hfp _ hm) (by decide)
  have nex : '.' ∉ ex := by
    rcases hex with rfl | ⟨x, r, rfl, hx, hr⟩
    · simp
    · intro hm
      rw [List.mem_cons] at hm
      rcases hm with hm | hm
      · rcases hx with rfl | rfl <;> exact absurd hm (by decide)
      · exact (isExponent_plain r hr _ hm).2 rfl
  have hstr1 : (if indexOf '.' (ip ++ dot ++ fp ++ ex) > -1 then
      (ip ++ dot ++ fp ++ ex).erase '.' else ip ++ dot ++ fp ++ ex) = (ip ++ fp) ++ ex := by
    rcases hdot with rfl | rfl
    · have nm : '.' ∉ ip ++ [] ++ fp ++ ex := by simp [nip, nfp, nex]
      rw [indexOf_of_not_mem _ _ nm]
      simp
    · have hm : '.' ∈ ip ++ ['.'] ++ fp ++ ex := by simp
      rw [if_pos (indexOf_of_mem _ _ hm)]
      rw [List.append_assoc, List.append_assoc, List.erase_append_right _ nip]
      simp
  rw [hstr1]
  have hD : ∀ c ∈ ip ++ fp, isDigit c = true := by
    intro c hc
    rw [List.mem_append] at hc
    rcases hc with hc | hc
    · exact hip c hc
    · exact hfp c hc
  rcases hex with rfl | ⟨x, r, rfl, hx, _⟩
  · rw [List.append_nil, searchE_of_digits _ hD]
    simpa using hD
  · rw [searchE_append _ r x hD hx]
    have hpos : (0 : Int) < ((ip ++ fp).length : Int) := by
      have : 0 < (ip ++ fp).length := List.length_pos.mpr hne
      omega
    rw [if_pos hpos]
    simp only [Int.toNat_ofNat, List.take_left]
    exact hD

/-- The value of a digit character is at most 9. -/
theorem digit_value_le (c : Char) (h : isDigit c = true) : c.toNat - 48 ≤ 9 := by
  simp only [isDigit, Bool.and_eq_true, decide_eq_true_eq] at h
  have h2 : c.toNat ≤ 57 := Char.le_def.mp h.2
  omega

/-- The bound behind `digitsToNat_lt`, for any starting value of the fold. -/
theorem foldl_digits_bound (cs : List Char) (h : ∀ c ∈ cs, isDigit c = true) (n : Nat) :
    cs.foldl (fun n c => 10 * n + (c.toNat - 48)) n + 1 ≤ (n + 1) * 10 ^ cs.length := by
  induction cs generalizing n with
  | nil => simp
  | cons c cs ih =>
    have hc := digit_value_le c (h c (List.mem_cons_self _ _))
    have := ih (fun x hx => h x (List.mem_cons_of_mem _ hx)) (10 * n + (c.toNat - 48))
    simp only [List.foldl_cons, List.length_cons]
    calc List.foldl (fun n c => 10 * n + (c.toNat - 48)) (10 * n + (c.toNat - 48)) cs + 1
        ≤ (10 * n + (c.toNat - 48) + 1) * 10 ^ cs.length := this
      _ ≤ (10 * n + 10) * 10 ^ cs.length := Nat.mul_le_mul_right _ (by omega)
      _ = (n + 1) * 10 ^ (cs.length + 1) := by ring

/-- A run of `n` digits has a value below `10 ^ n`. -/
theorem digitsToNat_lt (cs : List Char) (h : ∀ c ∈ cs, isDigit c = true) :
    digitsToNat cs < 10 ^ cs.length := by
  have := foldl_digits_bound cs h 0
  simp only [Nat.zero_add, Nat.one_mul] at this
  exact this

/-- A non-zero word has no more trailing zeros than digits after its first. -/
theorem trailingZeros_le_digitsAbove (fuel w : Nat) (hw : w ≠ 0) :
    trailingZeros fuel w ≤ digitsAbove fuel w := by
  induction fuel generalizing w with
  | zero => simp [trailingZeros, digitsAbove]
  | succ f ih =>
    unfold trailingZeros digitsAbove
    split
    · next hm =>
      have h10 : 10 ≤ w := by omega
      rw [if_pos h10]
      have := ih (w / 10) (by omega)
      omega
    · omega

/-- A non-zero word below `10 ^ n` has fewer than `n` trailing zeros. -/
theorem trailingZeros_lt (fuel w n : Nat) (hw : w ≠ 0) (hn : w < 10 ^ n) :
    trailingZeros fuel w < n := by
  induction fuel generalizing w n with
  | zero =>
    cases n with
    | zero => simp at hn; omega
    | succ n => simp [trailingZeros]
  | succ f ih =>
    cases n with
    | zero => simp at hn; omega
    | succ n =>
      unfold trailingZeros
      split
      · next hm =>
        have h1 : w / 10 < 10 ^ n := by
          rw [Nat.div_lt_iff_lt_mul (by decide)]
          rw [pow_succ] at hn
          exact hn
        have := ih (w / 10) n (by omega) h1
        omega
      · omega

/-- The function `laterWords` returns at least one word. -/
theorem laterWords_ne_nil (cs : List Char) : laterWords cs ≠ [] := by
  unfold laterWords
  split <;> simp

/-- The words of `laterWords` on digits are below `10 ^ 7`. -/
theorem laterWords_lt (cs : List Char) (h : ∀ c ∈ cs, isDigit c = true) :
    ∀ w ∈ laterWords cs, w < 10 ^ 7 := by
  induction cs using laterWords.induct with
  | case1 a b c d e f g x t ih =>
    intro w hw
    rw [laterWords, List.mem_cons] at hw
    rcases hw with rfl | hw
    · have := digitsToNat_lt [a, b, c, d, e, f, g] (fun y hy => h y (by
        simp only [List.mem_cons, List.mem_singleton, List.not_mem_nil, or_false] at hy ⊢
        tauto))
      exact this
    · exact ih (fun y hy => h y (by
        simp only [List.mem_cons] at hy ⊢
        tauto)) w hw
  | case2 rest hne =>
    intro w hw
    have hlen : rest.length ≤ 7 := by
      by_contra hc
      rcases rest with _ | ⟨a, _ | ⟨b, _ | ⟨c, _ | ⟨d, _ | ⟨e, _ | ⟨f, _ | ⟨g, _ | ⟨x, t⟩⟩⟩⟩⟩⟩⟩⟩ <;>
        simp at hc
      exact hne a b c d e f g x t rfl
    rw [laterWords] at hw
    · simp only [List.mem_singleton] at hw
      subst hw
      have := digitsToNat_lt (rest ++ List.replicate (LOG_BASE - rest.length) '0') (by
        intro y hy
        rw [List.mem_append] at hy
        rcases hy with hy | hy
        · exact h y hy
        · rw [List.eq_of_mem_replicate hy]
          decide)
      have hl : (rest ++ List.replicate (LOG_BASE - rest.length) '0').length = 7 := by
        simp only [List.length_append, List.length_replicate, LOG_BASE]
        omega
      rw [hl] at this
      exact this
    · exact hne

/-- A digit array whose last word is below `10 ^ 7` has a precision of at least 1. -/
theorem getPrecision_pos (d : List Nat) (hne : d ≠ [])
    (hlast : 2 ≤ d.length → ∀ w, d.getLast? = some w → w < 10 ^ 7) :
    1 ≤ getPrecision d := by
  have hW := List.getLast?_eq_getLast d hne
  generalize d.getLast hne = W at hW
  have hget : d.getD (d.length - 1) 0 = W := by
    rw [List.getD_eq_getElem?_getD, ← List.getLast?_eq_getElem?, hW]
    rfl
  unfold getPrecision
  simp only [hget]
  have hnn : (0 : Int) ≤ ((d.length - 1 : Nat) : Int) * (LOG_BASE : Int) := by positivity
  split
  · next hW0 =>
    by_cases h2 : 2 ≤ d.length
    · have h7 := trailingZeros_lt W W 7 hW0 (hlast h2 W hW)
      have hl : (1 : Int) ≤ ((d.length - 1 : Nat) : Int) := by omega
      have : (7 : Int) ≤ ((d.length - 1 : Nat) : Int) * (LOG_BASE : Int) := by
        simp only [LOG_BASE]
        omega
      omega
    · have h1 : d.length = 1 := by
        have : 0 < d.length := List.length_pos.mpr hne
        omega
      obtain ⟨x, rfl⟩ := List.length_eq_one.mp h1
      simp only [List.getLast?_singleton, Option.some.injEq] at hW
      subst hW
      have := trailingZeros_le_digitsAbove x x hW0
      simp only [List.headD_cons]
      omega
  · omega

/-- The function `toWords` returns at least one word. -/
theorem toWords_ne_nil (str : List Char) (e : Int) : toWords str e ≠ [] := by
  unfold toWords
  simp only []
  generalize (if e < 0 then Int.tmod (e + 1) LOG_BASE + LOG_BASE
    else Int.tmod (e + 1) LOG_BASE).toNat = i
  split
  · simp [laterWords_ne_nil]
  · simp

/-- The last word of `toWords` on digits is below `10 ^ 7` when there are two words or more. -/
theorem toWords_last (str : List Char) (e : Int) (h : ∀ c ∈ str, isDigit c = true) :
    2 ≤ (toWords str e).length → ∀ w, (toWords str e).getLast? = some w → w < 10 ^ 7 := by
  unfold toWords
  simp only []
  generalize (if e < 0 then Int.tmod (e + 1) LOG_BASE + LOG_BASE
    else Int.tmod (e + 1) LOG_BASE).toNat = i
  split
  · intro _ w hw
    rw [List.getLast?_append_of_ne_nil _ (laterWords_ne_nil _)] at hw
    exact laterWords_lt _ (fun c hc => h c (List.mem_of_mem_drop hc)) w
      (List.mem_of_getLast?_eq_some hw)
  · intro h2
    simp at h2

/-- A decimal literal that `parseDecimal` turns into a number with digits has a
`precision(true)` of at least 1. -/
theorem parseDecimal_precision_pos (s : Int) (str0 : List Char) (h : isDecimal str0 = true)
    (d : List Nat) (hd : (parseDecimal s str0).d = some d) :
    ∃ k, (parseDecimal s str0).precision true = .int k ∧ 1 ≤ k := by
  have key : ∃ (str : List Char) (e : Int), (∀ c ∈ str, isDigit c = true) ∧
      parseDecimal s str0 =
        (if !str.isEmpty then
          (if e > maxE then ⟨.int s, .nan, none⟩
           else if e < minE then ⟨.int s, .int 0, some [0]⟩
           else ⟨.int s, .int e, some (toWords str e)⟩)
         else ⟨.int s, .int 0, some [0]⟩) := by
    refine ⟨_, _, ?_, rfl⟩
    intro c hc
    exact isDecimal_mantissa str0 h c (List.mem_of_mem_take (List.mem_of_mem_drop hc))
  obtain ⟨str, e, hdig, heq⟩ := key
  rw [heq] at hd ⊢
  split at hd
  · split at hd
    · simp at hd
    · split at hd
      · next h1 h2 h3 =>
        rw [if_pos h1, if_neg h2, if_pos h3]
        exact ⟨1, rfl, le_refl _⟩
      · next h1 h2 h3 =>
        rw [if_pos h1, if_neg h2, if_neg h3]
        have hk := getPrecision_pos (toWords str e) (toWords_ne_nil str e)
          (toWords_last str e hdig)
        simp only [Decimal.precision, Bool.true_and, decide_eq_true_eq]
        split
        · exact ⟨_, rfl, by omega⟩
        · exact ⟨_, rfl, hk⟩
  · next h1 =>
    rw [if_neg h1]
    exact ⟨1, rfl, le_refl _⟩

/-- Whatever `new Decimal` returns with digits counts at least one digit, provided the
conversion of binary, octal and hexadecimal literals does. -/
theorem new_hasDigits (fromBase : Nat → Int → List Char → Decimal)
    (hfb : ∀ b s cs, HasDigits (fromBase b s cs)) (v : String) (x : Decimal)
    (h : Decimal.new fromBase v = .ok x) : HasDigits x := by
  unfold Decimal.new at h
  have other : ∀ (s : Int) (str : List Char),
      parseOther fromBase s str = Except.ok x → HasDigits x := by
    intro s str hs
    unfold parseOther at hs
    have radix : ∀ str2 : List Char,
        (if isHex str2 = true then Except.ok (fromBase 16 s str2)
          else if isBinary str2 = true then Except.ok (fromBase 2 s str2)
          else if isOctal str2 = true then Except.ok (fromBase 8 s str2)
          else Except.error ("[DecimalError] Invalid argument: " ++ String.mk str2)) =
          Except.ok x → HasDigits x := by
      intro str2 hr
      split at hr
      · simp only [Except.ok.injEq] at hr
        subst hr
        exact hfb _ _ _
      · split at hr
        · simp only [Except.ok.injEq] at hr
          subst hr
          exact hfb _ _ _
        · split at hr
          · simp only [Except.ok.injEq] at hr
            subst hr
            exact hfb _ _ _
          · simp at hr
    by_cases hu : indexOf '_' str > -1
    · simp only [hu, decide_True, if_true, Bool.true_and, Bool.not_true, Bool.false_and,
        Bool.false_eq_true, if_false] at hs
      split at hs
      · next hd =>
        simp only [Except.ok.injEq] at hs
        subst hs
        exact fun d hd2 => parseDecimal_precision_pos s _ hd d hd2
      · exact radix _ hs
    · simp only [hu, decide_False, Bool.false_eq_true, if_false, Bool.false_and,
        Bool.not_false, Bool.true_and] at hs
      split at hs
      · simp only [Except.ok.injEq] at hs
        subst hs
        intro d hd
        simp at hd
      · split at hs
        · simp only [Except.ok.injEq] at hs
          subst hs
          intro d hd
          simp at hd
        · exact radix _ hs
  have key : ∀ (s : Int) (str : List Char),
      (if isDecimal str = true then Except.ok (parseDecimal s str)
        else parseOther fromBase s str) = Except.ok x → HasDigits x := by
    intro s str hs
    split at hs
    · next hd =>
      simp only [Except.ok.injEq] at hs
      subst hs
      exact fun d hd2 => parseDecimal_precision_pos s _ hd d hd2
    · exact other s str hs
  split at h
  next s str heq =>
  exact key s str h

end DecimalJs

/-- Claim C12, as stated, fails: under `maxDigits = 0` the non-empty string "abc" does not
parse and gets `doubleNumber.e001` alone, and the non-empty string "NaN" parses to a value
without a digit count and gets no error; neither result holds `doubleNumber.e002`. -/
theorem match_nonpositive_maxDigits_counterexample :
    "abc" ≠ "" ∧
    ((⟨0, none⟩ : DecimalNumberMatcher).«match» (decimalJs DecimalJs.noRadix)
      (some "abc")).result.codes = ["doubleNumber.e001"] ∧
    "doubleNumber.e002" ∉ ((⟨0, none⟩ : DecimalNumberMatcher).«match»
      (decimalJs DecimalJs.noRadix) (some "abc")).result.codes ∧
    "NaN" ≠ "" ∧
    ((⟨0, none⟩ : DecimalNumberMatcher).«match» (decimalJs DecimalJs.noRadix)
      (some "NaN")).result.codes = [] ∧
    "doubleNumber.e002" ∉ ((⟨0, none⟩ : DecimalNumberMatcher).«match»
      (decimalJs DecimalJs.noRadix) (some "NaN")).result.codes := by
  decide

/-- A literal converted by way of its decimal expansion counts at least one digit when it has
digits. -/
theorem DecimalJs.fromExpansion_hasDigits (expansion : Nat → List Char → List Char)
    (base : Nat) (s : Int) (str : List Char) :
    DecimalJs.HasDigits (DecimalJs.fromExpansion expansion base s str) := by
  intro d hd
  unfold DecimalJs.fromExpansion at hd ⊢
  by_cases hlit : DecimalJs.isDecimal (expansion base str) = true
  · simp only [hlit, if_true] at hd ⊢
    exact DecimalJs.parseDecimal_precision_pos s _ hlit d hd
  · simp [hlit] at hd

/-- Claim C12, amended. Under `maxDigits <= 0` every string that parses to a finite number gets
`doubleNumber.e002`: a value whose digit count is an integer of at least 1 exceeds the limit,
for every library, and every finite number that `decimal.js` parses, from a decimal literal or
from a binary, octal or hexadecimal one, counts at least one digit; so for "5" and "0x0". -/
theorem match_nonpositive_maxDigits :
    (∀ (L : DecimalLib) (self : DecimalNumberMatcher) (value : String) (number : L.Value)
      (k : Int),
      self.maxDigits ≤ 0 → L.new value = .ok number →
      L.precision number true = .int k → 1 ≤ k →
      "doubleNumber.e002" ∈ (self.«match» L (some value)).result.codes) ∧
    (∀ (expansion : Nat → List Char → List Char) (self : DecimalNumberMatcher)
      (value : String) (x : DecimalJs.Decimal) (d : List Nat),
      self.maxDigits ≤ 0 →
      (decimalJs (DecimalJs.fromExpansion expansion)).new value = .ok x → x.d = some d →
      "doubleNumber.e002" ∈
        (self.«match» (decimalJs (DecimalJs.fromExpansion expansion))
          (some value)).result.codes) ∧
    (∀ fromBase,
      ((⟨0, none⟩ : DecimalNumberMatcher).«match» (decimalJs fromBase)
        (some "5")).result.errors =
        [⟨"doubleNumber.e002", "The value exceeded maximum number of digits."⟩]) ∧
    ((⟨0, none⟩ : DecimalNumberMatcher).«match»
      (decimalJs (DecimalJs.fromExpansion DecimalJs.expandZero))
        (some "0x0")).result.errors =
        [⟨"doubleNumber.e002", "The value exceeded maximum number of digits."⟩] := by
  have general : ∀ (L : DecimalLib) (self : DecimalNumberMatcher) (value : String)
      (number : L.Value) (k : Int),
      self.maxDigits ≤ 0 → L.new value = .ok number →
      L.precision number true = .int k → 1 ≤ k →
      "doubleNumber.e002" ∈ (self.«match» L (some value)).result.codes := by
    intro L self value number k hmax hnew hprec hk
    have hgt : (L.precision number true).gt self.maxDigits = true := by
      rw [hprec]
      simp only [JSNumber.gt, decide_eq_true_eq]
      omega
    rw [ValidationResult.codes, match_of_ok self L value number hnew, hgt]
    simp [ERRORS_MAP.maxDigitsError]
  refine ⟨general, ?_, fun _ => rfl, rfl⟩
  intro expansion self value x d hmax hnew hd
  obtain ⟨k, hk, hk1⟩ := DecimalJs.new_hasDigits (DecimalJs.fromExpansion expansion)
    (DecimalJs.fromExpansion_hasDigits expansion) value x hnew d hd
  exact general (decimalJs (DecimalJs.fromExpansion expansion)) self value x k hmax hnew hk hk1

/-- Claim C12, amended, at a concrete input: the hexadecimal literal "0x0" under
`maxDigits = 0`. -/
theorem match_nonpositive_maxDigits_witness :
    "doubleNumber.e002" ∈ ((⟨0, none⟩ : DecimalNumberMatcher).«match»
      (decimalJs (DecimalJs.fromExpansion DecimalJs.expandZero)) (some "0x0")).result.codes :=
  match_nonpositive_maxDigits.2.1 DecimalJs.expandZero ⟨0, none⟩ "0x0"
    ⟨.int 1, .int 0, some [0]⟩ [0] (by decide) rfl rfl

/-- Claim C14, as stated, fails: "1_000" holds a separator other than a decimal point, the
underscore, yet it parses, to the number that "1000" parses to, and under the default
configuration `match` returns no error, not `doubleNumber.e001`. -/
theorem match_separator_counterexample :
    '_' ∈ "1_000".data ∧
    (decimalJs DecimalJs.noRadix).new "1_000" = .ok ⟨.int 1, .int 3, some [1000]⟩ ∧
    (decimalJs DecimalJs.noRadix).new "1_000" = (decimalJs DecimalJs.noRadix).new "1000" ∧
    ((DecimalNumberMatcher.constructor none none).«match» (decimalJs DecimalJs.noRadix)
      (some "1_000")).result.errors = [] ∧
    ((DecimalNumberMatcher.constructor none none).«match» (decimalJs DecimalJs.noRadix)
      (some "1_000")).result.errors ≠
        [⟨"doubleNumber.e001", "The value is not a valid decimal number."⟩] :=
  ⟨by decide, rfl, rfl, rfl, by decide⟩

/-- Claim C14, amended. A string that holds a character other than a digit, a letter, a decimal
point, a sign or an underscore (a comma, a blank, an apostrophe), or more than one decimal
point, does not parse, and `match` returns exactly `doubleNumber.e001` under every
configuration; so for "1,234.5", "1,5" and "1.234.567". An underscore between two digits is
tolerated: "1_000" and "1_000.5" parse as "1000" and "1000.5" and get no error under the
default configuration. -/
theorem match_separator_is_e001 :
    (∀ fromBase (self : DecimalNumberMatcher) (value : String),
      ((∃ c ∈ value.data, DecimalJs.isSeparatorChar c = true) ∨ 2 ≤ value.data.count '.') →
      (∃ msg, (decimalJs fromBase).new value = .error msg) ∧
      (self.«match» (decimalJs fromBase) (some value)).result.errors =
        [⟨"doubleNumber.e001", "The value is not a valid decimal number."⟩]) ∧
    (DecimalJs.isSeparatorChar ',' = true ∧ DecimalJs.isSeparatorChar ' ' = true ∧
      DecimalJs.isSeparatorChar (Char.ofNat 39) = true ∧
      DecimalJs.isSeparatorChar (Char.ofNat 160) = true ∧
      DecimalJs.isSeparatorChar (Char.ofNat 8239) = true ∧
      DecimalJs.isSeparatorChar '_' = false) ∧
    (∀ fromBase (self : DecimalNumberMatcher),
      (self.«match» (decimalJs fromBase) (some "1,234.5")).result.errors =
        [⟨"doubleNumber.e001", "The value is not a valid decimal number."⟩] ∧
      (self.«match» (decimalJs fromBase) (some "1,5")).result.errors =
        [⟨"doubleNumber.e001", "The value is not a valid decimal number."⟩] ∧
      (self.«match» (decimalJs fromBase) (some "1.234.567")).result.errors =
        [⟨"doubleNumber.e001", "The value is not a valid decimal number."⟩]) ∧
    (∀ fromBase,
      (decimalJs fromBase).new "1_000" = (decimalJs fromBase).new "1000" ∧
      (decimalJs fromBase).new "1_000.5" = (decimalJs fromBase).new "1000.5" ∧
      (decimalJs fromBase).new "1_000" = .ok ⟨.int 1, .int 3, some [1000]⟩ ∧
      ((DecimalNumberMatcher.constructor none none).«match» (decimalJs fromBase)
        (some "1_000")).result.errors = [] ∧
      ((DecimalNumberMatcher.constructor none none).«match» (decimalJs fromBase)
        (some "1_000.5")).result.errors = []) := by
  refine ⟨?_, by decide, ?_, fun _ => ⟨rfl, rfl, rfl, rfl, rfl⟩⟩
  · intro fromBase self value hsep
    cases hnew : (decimalJs fromBase).new value with
    | error msg =>
      refine ⟨⟨msg, rfl⟩, ?_⟩
      rw [match_of_error self (decimalJs fromBase) value msg hnew]
      rfl
    | ok x =>
      exfalso
      have hplain := DecimalJs.new_plain fromBase value x hnew
      rcases hsep with ⟨c, hc, hs⟩ | h2
      · rw [hplain.1 c hc] at hs
        exact Bool.false_ne_true hs
      · have := hplain.2
        omega
  · intro fromBase self
    refine ⟨?_, ?_, ?_⟩
    · rw [match_of_error self (decimalJs fromBase) "1,234.5"
        "[DecimalError] Invalid argument: 1,234.5" rfl]
      rfl
    · rw [match_of_error self (decimalJs fromBase) "1,5"
        "[DecimalError] Invalid argument: 1,5" rfl]
      rfl
    · rw [match_of_error self (decimalJs fromBase) "1.234.567"
        "[DecimalError] Invalid argument: 1.234.567" rfl]
      rfl

/-- Claim C14, amended, at a concrete input: the default matcher on "1,5". -/
theorem match_separator_is_e001_witness :
    (∃ msg, (decimalJs DecimalJs.noRadix).new "1,5" = .error msg) ∧
    ((DecimalNumberMatcher.constructor none none).«match» (decimalJs DecimalJs.noRadix)
      (some "1,5")).result.errors =
        [⟨"doubleNumber.e001", "The value is not a valid decimal number."⟩] :=
  match_separator_is_e001.1 DecimalJs.noRadix (DecimalNumberMatcher.constructor none none)
    "1,5" (Or.inl ⟨',', by decide, by decide⟩)

/-- Updating the last of the result objects. -/
theorem Heap.update_append_length (f : ValidationResult → ValidationResult)
    (rs : List ValidationResult) (r : ValidationResult) :
    Heap.update f rs.length (rs ++ [r]) = rs ++ [f r] := by
  induction rs with
  | nil => rfl
  | cons a rs ih => simp [Heap.update, ih]

/-- What a call of `match` does to the heap: it allocates one result object, which ends up
holding what `match` computes from the fields of the matcher and the value, and it changes
nothing else. -/
theorem HeapMatcher.match_eq (L : DecimalLib) (h : Heap) (this : Nat) (value : Option String) :
    HeapMatcher.«match» L h this value =
      (h.results.length,
        ⟨h.matchers, h.results ++ [((h.matchers this).«match» L value).result]⟩) := by
  cases value with
  | none => rfl
  | some v =>
    cases hm : h.matchers this with
    | mk maxDigits maxDecimalPlaces =>
      cases hnew : L.new v with
      | error msg =>
        cases maxDecimalPlaces with
        | none =>
          simp [HeapMatcher.«match», HeapMatcher.parseNumber, HeapMatcher.validateDigits,
            Heap.newValidationResult, Heap.addInvalidTypeError, Heap.update_append_length,
            DecimalNumberMatcher.«match», DecimalNumberMatcher.parseNumber,
            DecimalNumberMatcher.validateDigits, hnew, hm]
        | some m =>
          by_cases hm0 : m = 0 <;>
          simp [HeapMatcher.«match», HeapMatcher.parseNumber, HeapMatcher.validateDigits,
            HeapMatcher.validateDecimalPlaces,
            Heap.newValidationResult, Heap.addInvalidTypeError, Heap.update_append_length,
            DecimalNumberMatcher.«match», DecimalNumberMatcher.parseNumber,
            DecimalNumberMatcher.validateDigits, DecimalNumberMatcher.validateDecimalPlaces,
            hnew, hm, hm0]
      | ok number =>
        cases maxDecimalPlaces with
        | none =>
          by_cases hp : (L.precision number true).gt maxDigits = true <;>
          simp [HeapMatcher.«match», HeapMatcher.parseNumber, HeapMatcher.validateDigits,
            Heap.newValidationResult, Heap.addInvalidTypeError, Heap.update_append_length,
            DecimalNumberMatcher.«match», DecimalNumberMatcher.parseNumber,
            DecimalNumberMatcher.validateDigits, hnew, hm, hp]
        | some m =>
          by_cases hm0 : m = 0 <;>
          by_cases hp : (L.precision number true).gt maxDigits = true <;>
          by_cases hd : (L.decimalPlaces number).gt m = true <;>
          simp [HeapMatcher.«match», HeapMatcher.parseNumber, HeapMatcher.validateDigits,
            HeapMatcher.validateDecimalPlaces,
            Heap.newValidationResult, Heap.addInvalidTypeError, Heap.update_append_length,
            DecimalNumberMatcher.«match», DecimalNumberMatcher.parseNumber,
            DecimalNumberMatcher.validateDigits, DecimalNumberMatcher.validateDecimalPlaces,
            hnew, hm, hm0, hp, hd]

/-- The object that a call of `match` returns holds what `match` computes from the fields of
the matcher and the value. -/
theorem HeapMatcher.returned_eq (L : DecimalLib) (h : Heap) (this : Nat)
    (value : Option String) :
    HeapMatcher.returned L h this value = some ((h.matchers this).«match» L value).result := by
  unfold HeapMatcher.returned
  rw [HeapMatcher.match_eq]
  simp

/-- A sequence of calls of `match` changes no matcher object and no result object that was
there before. -/
theorem HeapMatcher.run_frame (L : DecimalLib) (calls : List (Nat × Option String))
    (h : Heap) :
    (HeapMatcher.run L h calls).matchers = h.matchers ∧
    (HeapMatcher.run L h calls).results.take h.results.length = h.results := by
  induction calls generalizing h with
  | nil => simp [HeapMatcher.run]
  | cons c rest ih =>
    obtain ⟨this, value⟩ := c
    have h1 := ih (HeapMatcher.«match» L h this value).2
    rw [HeapMatcher.match_eq] at h1
    simp only [HeapMatcher.run]
    rw [HeapMatcher.match_eq]
    refine ⟨h1.1, ?_⟩
    have h2 := congrArg (List.take h.results.length) h1.2
    simp only [List.take_take, List.length_append, List.length_singleton] at h2
    rw [Nat.min_eq_left (Nat.le_add_right _ _)] at h2
    rw [h2]
    simp

/-- Claim C17. A call of `match` on a matcher object changes no matcher object, so `maxDigits`
and `maxDecimalPlaces` are what they were; it changes no result object that was there before;
the result it returns is a newly allocated object that holds what `match` computes from the
two fields and the value alone. After any sequence of other calls, on any matchers, the
fields are unchanged and a call with the same value returns an equal result; on an absent
value the returned object is the empty result; and "123.45" after "abc" on the same matcher
gets no error while the result of the first call keeps its `doubleNumber.e001`. -/
theorem match_pure :
    (∀ (L : DecimalLib) (h : Heap) (this : Nat) (value : Option String),
      (HeapMatcher.«match» L h this value).2.matchers = h.matchers ∧
      ((HeapMatcher.«match» L h this value).2.matchers this).maxDigits =
        (h.matchers this).maxDigits ∧
      ((HeapMatcher.«match» L h this value).2.matchers this).maxDecimalPlaces =
        (h.matchers this).maxDecimalPlaces ∧
      (HeapMatcher.«match» L h this value).2.results.take h.results.length = h.results ∧
      (HeapMatcher.«match» L h this value).1 = h.results.length ∧
      h.results[(HeapMatcher.«match» L h this value).1]? = none ∧
      HeapMatcher.returned L h this value =
        some ((h.matchers this).«match» L value).result) ∧
    (∀ (L : DecimalLib) (h : Heap) (this : Nat) (value : Option String)
      (between : List (Nat × Option String)),
      (HeapMatcher.run L h between).matchers = h.matchers ∧
      (HeapMatcher.run L h between).results.take h.results.length = h.results ∧
      HeapMatcher.returned L (HeapMatcher.run L h between) this value =
        HeapMatcher.returned L h this value ∧
      HeapMatcher.returned L (HeapMatcher.run L h ((this, value) :: between)) this value =
        HeapMatcher.returned L h this value) ∧
    (∀ (L : DecimalLib) (h : Heap) (this : Nat),
      HeapMatcher.returned L h this none = some ValidationResult.new) ∧
    (∀ fromBase,
      (HeapMatcher.run (decimalJs fromBase)
        ⟨fun _ => DecimalNumberMatcher.constructor none none, []⟩
        [(0, some "abc"), (0, some "123.45")]).results =
        [⟨[ERRORS_MAP.parsingNumberError]⟩, ⟨[]⟩]) := by
  refine ⟨?_, ?_, ?_, ?_⟩
  · intro L h this value
    refine ⟨?_, ?_, ?_, ?_, ?_, ?_, HeapMatcher.returned_eq L h this value⟩ <;>
      rw [HeapMatcher.match_eq] <;> simp
  · intro L h this value between
    have h1 := HeapMatcher.run_frame L between h
    have h2 := HeapMatcher.run_frame L ((this, value) :: between) h
    refine ⟨h1.1, h1.2, ?_, ?_⟩
    · rw [HeapMatcher.returned_eq, HeapMatcher.returned_eq, h1.1]
    · rw [HeapMatcher.returned_eq, HeapMatcher.returned_eq, h2.1]
  · intro L h this
    rw [HeapMatcher.returned_eq]
    rfl
  · intro fromBase
    rfl
